import Mathlib

/-!
Verification development for the volttx backend (Rust, `backend-rust/src`).

Shallow embedding conventions:
* Rust strings are modelled as `List Char` (header values pass axum's
  `HeaderValue::to_str`, so they are ASCII and byte length equals char count).
* Byte buffers are `List Nat` with every byte < 256; machine words are `Nat`
  reduced modulo `2 ^ 32` or `2 ^ 64` where the Rust code wraps.
* `i64` / `i32` database columns and timestamps are `Int`.
* Fallible Rust functions returning `Result<_, AppError>` become
  `Except AppErr _`; SQL transactions are modelled as a whole: an `Except.error`
  result means the transaction rolled back and the database state is unchanged.
* Wall-clock bookkeeping columns that no claim mentions (`updated_at`,
  `result_reported_at`) are elided; `locked_at`, `next_attempt_at` and the
  expiry columns are kept because the lease and timeout logic reads them.
-/

namespace Volttx

/-- Error kinds of `error.rs` (`AppError`); message payloads are elided. -/
inductive AppErr where
  | badRequest
  | unauthorized
  | notFound
  | conflict
  | internal
deriving DecidableEq

deriving instance DecidableEq for Except

/-- Strings are modelled as character lists. -/
abbrev Str := List Char

/-- ASCII whitespace recognised by `str::trim` on the inputs we model. -/
def isWsChar (c : Char) : Bool :=
  c = ' ' || c = '\t' || c = '\n' || c = '\r'

/-- Model of `str::trim`: drop whitespace from both ends. -/
def trimStr (l : Str) : Str :=
  ((l.dropWhile isWsChar).reverse.dropWhile isWsChar).reverse

/-- SQL `coalesce(old, new)`: keep `old` when non-null. -/
def coalesce {α : Type} (old new : Option α) : Option α :=
  match old with
  | some v => some v
  | none => new

/- ==================== db/matches.rs : join codes ==================== -/

/-- The digit alphabet of `to_base36` (`DIGITS` in `db/matches.rs`). -/
def base36Alphabet : Str := ("0123456789ABCDEFGHIJKLMNOPQRSTUVWXYZ".toList)

/-- Digit lookup `DIGITS[rem]` for `rem < 36`. -/
def base36Digit (n : Nat) : Char := base36Alphabet.getD n '0'

/-- The digit-emitting loop of `to_base36`, big-endian digit order
(the Rust loop fills the buffer from the right). -/
def to_base36_digits (v : Nat) : Str :=
  if h : v = 0 then []
  else to_base36_digits (v / 36) ++ [base36Digit (v % 36)]
decreasing_by exact Nat.div_lt_self (Nat.pos_of_ne_zero h) (by norm_num)

/-- Model of `to_base36` in `db/matches.rs`. -/
def to_base36 (v : Nat) : Str :=
  if v = 0 then ['0'] else to_base36_digits v

/-- Model of `join_code_from_match_id` in `db/matches.rs`.
Positive ids only; the Rust code casts `match_id as u64`, which is
value-preserving for positive `i64`, modelled by `Int.toNat`. -/
def join_code_from_match_id (matchId : Int) : Except AppErr Str :=
  if matchId ≤ 0 then .error .internal
  else .ok ('M' :: to_base36 matchId.toNat)

/-- Modelled from the spec: `base36_upper(n)` as the standard mathematical
base-36 positional encoding with digits 0-9/A-Z, most significant digit first.
Used only to compare the source's `to_base36` against the spec's wording. -/
def specBase36Upper (n : Nat) : Str :=
  ((Nat.digits 36 n).reverse).map base36Digit

/- ==================== worker/finalizer.rs : retry backoff ==================== -/

/-- `MAX_BACKOFF_SECONDS` in `worker/finalizer.rs`. -/
def MAX_BACKOFF_SECONDS : Int := 60

/-- Model of `retry_backoff_seconds` in `worker/finalizer.rs`:
`exp = attempts.clamp(1, 6)`, `secs = 1 << exp` (never overflows for
`exp ≤ 6`, so `checked_shl`'s `None` branch is dead), capped at 60. -/
def retry_backoff_seconds (attempts : Int) : Int :=
  let exp : Int := max 1 (min attempts 6)
  let secs : Int := 2 ^ exp.toNat
  min secs MAX_BACKOFF_SECONDS

/- ==================== SHA-256 / HMAC (sha2 + hmac crates) ==================== -/

/-- Reduce a word modulo `2 ^ 32`. -/
def w32 (n : Nat) : Nat := n % 4294967296

/-- 32-bit right rotation (inputs are always `< 2 ^ 32`). -/
def rotr32 (x n : Nat) : Nat := w32 ((x >>> n) ||| (x <<< (32 - n)))

/-- SHA-256 `Ch`. -/
def shaCh (x y z : Nat) : Nat := (x &&& y) ^^^ ((x ^^^ 4294967295) &&& z)

/-- SHA-256 `Maj`. -/
def shaMaj (x y z : Nat) : Nat := (x &&& y) ^^^ (x &&& z) ^^^ (y &&& z)

/-- SHA-256 capital Sigma0. -/
def shaS0 (x : Nat) : Nat := rotr32 x 2 ^^^ rotr32 x 13 ^^^ rotr32 x 22

/-- SHA-256 capital Sigma1. -/
def shaS1 (x : Nat) : Nat := rotr32 x 6 ^^^ rotr32 x 11 ^^^ rotr32 x 25

/-- SHA-256 small sigma0. -/
def shas0 (x : Nat) : Nat := rotr32 x 7 ^^^ rotr32 x 18 ^^^ (x >>> 3)

/-- SHA-256 small sigma1. -/
def shas1 (x : Nat) : Nat := rotr32 x 17 ^^^ rotr32 x 19 ^^^ (x >>> 10)

/-- SHA-256 round constants. -/
def shaK : List Nat :=
  [1116352408, 1899447441, 3049323471, 3921009573,
   961987163, 1508970993, 2453635748, 2870763221,
   3624381080, 310598401, 607225278, 1426881987,
   1925078388, 2162078206, 2614888103, 3248222580,
   3835390401, 4022224774, 264347078, 604807628,
   770255983, 1249150122, 1555081692, 1996064986,
   2554220882, 2821834349, 2952996808, 3210313671,
   3336571891, 3584528711, 113926993, 338241895,
   666307205, 773529912, 1294757372, 1396182291,
   1695183700, 1986661051, 2177026350, 2456956037,
   2730485921, 2820302411, 3259730800, 3345764771,
   3516065817, 3600352804, 4094571909, 275423344,
   430227734, 506948616, 659060556, 883997877,
   958139571, 1322822218, 1537002063, 1747873779,
   1955562222, 2024104815, 2227730452, 2361852424,
   2428436474, 2756734187, 3204031479, 3329325298]

/-- SHA-256 initial hash words. -/
def shaH0 : List Nat :=
  [1779033703, 3144134277, 1013904242, 2773480762,
   1359893119, 2600822924, 528734635, 1541459225]

/-- Merkle-Damgard padding: append 128, zeros, and the 64-bit big-endian
bit length so the total is a multiple of 64 bytes. -/
def shaPad (msg : List Nat) : List Nat :=
  let len := msg.length
  let bitLen := 8 * len
  let zeros := (119 - (len % 64)) % 64
  msg ++ 128 :: List.replicate zeros 0 ++
    [(bitLen >>> 56) % 256, (bitLen >>> 48) % 256, (bitLen >>> 40) % 256,
     (bitLen >>> 32) % 256, (bitLen >>> 24) % 256, (bitLen >>> 16) % 256,
     (bitLen >>> 8) % 256, bitLen % 256]

/-- Split a byte list into 64-byte chunks; the fuel argument (instantiated
with the list length) keeps the recursion structural so the kernel can
evaluate digests. -/
def chunks64Aux : Nat → List Nat → List (List Nat)
  | 0, _ => []
  | _, [] => []
  | fuel + 1, l => l.take 64 :: chunks64Aux fuel (l.drop 64)

/-- Split a byte list into 64-byte chunks. -/
def chunks64 (l : List Nat) : List (List Nat) := chunks64Aux l.length l

/-- Big-endian 32-bit words from bytes. -/
def beWords : List Nat → List Nat
  | b0 :: b1 :: b2 :: b3 :: rest => (((b0 * 256 + b1) * 256 + b2) * 256 + b3) :: beWords rest
  | _ => []

/-- Append one message-schedule word. -/
def shaStepW (w : List Nat) : List Nat :=
  let n := w.length
  w ++ [w32 (shas1 (w.getD (n - 2) 0) + w.getD (n - 7) 0 +
             shas0 (w.getD (n - 15) 0) + w.getD (n - 16) 0)]

/-- Extend the 16-word schedule by `k` words. -/
def shaExtendW : Nat → List Nat → List Nat
  | 0, w => w
  | k + 1, w => shaExtendW k (shaStepW w)

/-- One SHA-256 round on the working state `[a,b,c,d,e,f,g,h]`. -/
def shaRound (kt wt : Nat) (st : List Nat) : List Nat :=
  match st with
  | [a, b, c, d, e, f, g, h] =>
    let t1 := w32 (h + shaS1 e + shaCh e f g + kt + wt)
    let t2 := w32 (shaS0 a + shaMaj a b c)
    [w32 (t1 + t2), a, b, c, w32 (d + t1), e, f, g]
  | other => other

/-- Compress one 64-byte block into the hash state. -/
def shaCompress (hs : List Nat) (block : List Nat) : List Nat :=
  let w := shaExtendW 48 (beWords block)
  let fin := (List.zip shaK w).foldl (fun st kw => shaRound kw.1 kw.2 st) hs
  List.zipWith (fun x y => w32 (x + y)) hs fin

/-- SHA-256 digest as eight 32-bit words. -/
def sha256Words (msg : List Nat) : List Nat :=
  (chunks64 (shaPad msg)).foldl shaCompress shaH0

/-- Big-endian bytes of a 32-bit word. -/
def wordBytesBE (w : Nat) : List Nat :=
  [(w >>> 24) % 256, (w >>> 16) % 256, (w >>> 8) % 256, w % 256]

/-- SHA-256 digest as 32 bytes. -/
def sha256 (msg : List Nat) : List Nat :=
  ((sha256Words msg).map wordBytesBE).flatten

/-- HMAC-SHA-256 (`Hmac<Sha256>` of the hmac crate), block size 64. -/
def hmacSha256 (key msg : List Nat) : List Nat :=
  let k0 := if 64 < key.length then sha256 key else key
  let k := k0 ++ List.replicate (64 - k0.length) 0
  let ipad := k.map (fun b => b ^^^ 54)
  let opad := k.map (fun b => b ^^^ 92)
  sha256 (opad ++ sha256 (ipad ++ msg))

/-- ASCII bytes of a modelled string. -/
def strBytes (s : Str) : List Nat := s.map Char.toNat

/- ==================== hex (hex crate) and numeric parsing ==================== -/

/-- Value of one hex digit (`hex` crate accepts 0-9, a-f, A-F). -/
def hexDigitVal (c : Char) : Option Nat :=
  let n := c.toNat
  if 48 ≤ n ∧ n ≤ 57 then some (n - 48)
  else if 97 ≤ n ∧ n ≤ 102 then some (n - 87)
  else if 65 ≤ n ∧ n ≤ 70 then some (n - 55)
  else none

/-- Model of `hex::decode`: pairs of hex digits; odd length or a non-hex
character is an error. -/
def hexDecode : Str → Option (List Nat)
  | [] => some []
  | [_] => none
  | a :: b :: rest =>
    match hexDigitVal a, hexDigitVal b, hexDecode rest with
    | some hi, some lo, some tl => some ((hi * 16 + lo) :: tl)
    | _, _, _ => none

/-- Lowercase hex digit for `n < 16` (`hex::encode` emits lowercase). -/
def hexChar (n : Nat) : Char :=
  if n < 10 then Char.ofNat (48 + n) else Char.ofNat (87 + n)

/-- Model of `hex::encode` for bytes `< 256`. -/
def hexEncode (bs : List Nat) : Str :=
  (bs.map (fun b => [hexChar (b / 16), hexChar (b % 16)])).flatten

/-- Digit run of a base-10 integer literal; `none` when empty or non-digit. -/
def parseDigitsAux : Str → Nat → Option Nat
  | [], acc => some acc
  | c :: cs, acc =>
    if 48 ≤ c.toNat ∧ c.toNat ≤ 57 then parseDigitsAux cs (acc * 10 + (c.toNat - 48))
    else none

/-- Parse a non-empty decimal digit string. -/
def parseDigits (l : Str) : Option Nat :=
  match l with
  | [] => none
  | _ => parseDigitsAux l 0

/-- Model of `str::parse::<i64>`: optional sign, decimal digits, i64 range. -/
def parseI64 (l : Str) : Option Int :=
  let signed : Option Int :=
    match l with
    | '+' :: rest => (parseDigits rest).map Int.ofNat
    | '-' :: rest => (parseDigits rest).map (fun n => -(Int.ofNat n))
    | _ => (parseDigits l).map Int.ofNat
  match signed with
  | some v => if -9223372036854775808 ≤ v ∧ v ≤ 9223372036854775807 then some v else none
  | none => none

/- ==================== api/internal_auth.rs ==================== -/

/-- `MAX_CLOCK_SKEW_SECONDS` in `api/internal_auth.rs`. -/
def MAX_CLOCK_SKEW_SECONDS : Int := 300

/-- `MAX_NONCE_LEN` in `api/internal_auth.rs`. -/
def MAX_NONCE_LEN : Nat := 128

/-- Model of `parse_timestamp`. -/
def parse_timestamp (raw : Str) : Except AppErr Int :=
  match parseI64 (trimStr raw) with
  | some v => .ok v
  | none => .error .unauthorized

/-- The lowercase `sha256=` signature marker the verifier strips. -/
def sigMarkerLower : Str := ['s', 'h', 'a', '2', '5', '6', '=']

/-- The uppercase `SHA256=` signature marker the verifier strips. -/
def sigMarkerUpper : Str := ['S', 'H', 'A', '2', '5', '6', '=']

/-- Model of `parse_signature_hex` in `api/internal_auth.rs`: trim, strip an
exact `sha256=` or `SHA256=` leading marker if present, reject empty, hex-decode. -/
def parse_signature_hex (raw : Str) : Except AppErr (List Nat) :=
  let trimmed := trimStr raw
  let hexStr :=
    if sigMarkerLower.isPrefixOf trimmed then trimmed.drop 7
    else if sigMarkerUpper.isPrefixOf trimmed then trimmed.drop 7
    else trimmed
  if hexStr = [] then .error .unauthorized
  else
    match hexDecode hexStr with
    | some bytes => .ok bytes
    | none => .error .unauthorized

/-- Model of `header_value`: a missing header is `Unauthorized`
(non-visible-ASCII values, which `to_str` rejects, are outside the model). -/
def header_value (h : Option Str) : Except AppErr Str :=
  match h with
  | some v => .ok v
  | none => .error .unauthorized

/-- Model of `verify_internal_hmac` in `api/internal_auth.rs`. The database
nonce-store insert is abstracted by `nonceUsed` (true when the nonce row
already exists, i.e. `insert_nonce_if_unused` returned false). -/
def verify_internal_hmac (secret : Str) (tsHeader nonceHeader sigHeader : Option Str)
    (rawBody : List Nat) (now : Int) (nonceUsed : Bool) : Except AppErr Unit :=
  if secret = [] then .error .unauthorized
  else
    match header_value tsHeader with
    | .error e => .error e
    | .ok timestampRaw =>
    match header_value nonceHeader with
    | .error e => .error e
    | .ok nonceRaw =>
    match header_value sigHeader with
    | .error e => .error e
    | .ok signatureRaw =>
      let nonce := trimStr nonceRaw
      if nonce = [] ∨ MAX_NONCE_LEN < nonce.length then .error .unauthorized
      else
        match parse_timestamp timestampRaw with
        | .error e => .error e
        | .ok timestamp =>
          if MAX_CLOCK_SKEW_SECONDS < |now - timestamp| then .error .unauthorized
          else
            match parse_signature_hex signatureRaw with
            | .error e => .error e
            | .ok providedSig =>
              if providedSig ≠ hmacSha256 (strBytes secret)
                  (strBytes (trimStr timestampRaw) ++ [46] ++ strBytes nonce ++ [46] ++ rawBody)
              then .error .unauthorized
              else if nonceUsed then .error .unauthorized
              else .ok ()

/- ==================== solana/game_account.rs ==================== -/

/-- On-chain `GameState` variants. -/
inductive DecodedGameState where
  | created
  | joined
  | settled
  | refunded
deriving DecidableEq

/-- Model of `DecodedGameAccount`; pubkeys are 32-byte lists. -/
structure DecodedGameAccount where
  player1 : List Nat
  player2 : List Nat
  entry_amount : Nat
  authority : List Nat
  match_id : Nat
  state : DecodedGameState
  created_at : Int
  joined_at : Int
  bump : Nat
  vault_bump : Nat
deriving DecidableEq

/-- Model of `game_account_discriminator`: `SHA256("account:Game")[0..8]`. -/
def game_account_discriminator : List Nat :=
  (sha256 (strBytes ("account:Game".toList))).take 8

/-- Model of `read_fixed::<N>`: `N` bytes at cursor `i`, advancing it. -/
def read_fixed (n : Nat) (data : List Nat) (i : Nat) : Option (List Nat × Nat) :=
  if i + n ≤ data.length then some ((data.drop i).take n, i + n) else none

/-- Model of `read_u8`. -/
def read_u8 (data : List Nat) (i : Nat) : Option (Nat × Nat) :=
  match data.get? i with
  | some b => some (b, i + 1)
  | none => none

/-- Little-endian value of a byte list. -/
def leVal : List Nat → Nat
  | [] => 0
  | b :: rest => b + 256 * leVal rest

/-- Model of `read_u64` (8 bytes little-endian). -/
def read_u64 (data : List Nat) (i : Nat) : Option (Nat × Nat) :=
  match read_fixed 8 data i with
  | some (bytes, j) => some (leVal bytes, j)
  | none => none

/-- Model of `read_i64`: 8 bytes little-endian, two's complement. -/
def read_i64 (data : List Nat) (i : Nat) : Option (Int × Nat) :=
  match read_fixed 8 data i with
  | some (bytes, j) =>
    let u := leVal bytes
    some (if u < 9223372036854775808 then (u : Int) else (u : Int) - 18446744073709551616, j)
  | none => none

/-- Model of `decode_game_account` in `solana/game_account.rs`.
`BODY_LEN = 32+32+8+32+8+1+8+8+1+1 = 131`; the function requires
`data.len() ≥ 8 + BODY_LEN`, checks the discriminator, then reads the
fixed little-endian layout. `none` models the `anyhow` error results. -/
def gameStateOfByte (b : Nat) : Option DecodedGameState :=
  match b with
  | 0 => some DecodedGameState.created
  | 1 => some DecodedGameState.joined
  | 2 => some DecodedGameState.settled
  | 3 => some DecodedGameState.refunded
  | _ => none

/-- `BODY_LEN` constant of `decode_game_account`. -/
def BODY_LEN : Nat := 32 + 32 + 8 + 32 + 8 + 1 + 8 + 8 + 1 + 1

def decode_game_account (data : List Nat) : Option DecodedGameAccount :=
  if data.length < 8 + BODY_LEN then none
  else if data.take 8 ≠ game_account_discriminator then none
  else
    match read_fixed 32 data 8 with
    | none => none
    | some (player1, i1) =>
    match read_fixed 32 data i1 with
    | none => none
    | some (player2, i2) =>
    match read_u64 data i2 with
    | none => none
    | some (entry_amount, i3) =>
    match read_fixed 32 data i3 with
    | none => none
    | some (authority, i4) =>
    match read_u64 data i4 with
    | none => none
    | some (match_id, i5) =>
    match read_u8 data i5 with
    | none => none
    | some (stByte, i6) =>
    match gameStateOfByte stByte with
    | none => none
    | some state =>
    match read_i64 data i6 with
    | none => none
    | some (created_at, i7) =>
    match read_i64 data i7 with
    | none => none
    | some (joined_at, i8) =>
    match read_u8 data i8 with
    | none => none
    | some (bump, i9) =>
    match read_u8 data i9 with
    | none => none
    | some (vault_bump, _) =>
      some { player1 := player1, player2 := player2, entry_amount := entry_amount,
             authority := authority, match_id := match_id, state := state,
             created_at := created_at, joined_at := joined_at,
             bump := bump, vault_bump := vault_bump }

/- ==================== models/enums.rs ==================== -/

/-- `MatchStatus` of `models/enums.rs` (snake_case DB literals). -/
inductive MatchStatus where
  | waitingCreateTx
  | createdOnChain
  | joinedOnChain
  | inProgress
  | resultPendingFinalize
  | finalizing
  | settled
  | refunded
deriving DecidableEq

/-- `ChainJobType` of `models/enums.rs`. -/
inductive ChainJobType where
  | settle
  | forceRefund
deriving DecidableEq

/-- `ChainJobStatus` of `models/enums.rs`. -/
inductive ChainJobStatus where
  | pending
  | submitted
  | retrying
  | confirmed
  | failed
deriving DecidableEq

/-- `ResultOutcome` of `models/enums.rs`. -/
inductive ResultOutcome where
  | winner
  | broken
deriving DecidableEq

/- ==================== persisted rows ==================== -/

/-- A `chain_jobs` row (lock tokens are opaque; UUIDs become `Nat`). -/
structure ChainJob where
  jobType : ChainJobType
  status : ChainJobStatus
  winnerPubkey : Option Str
  attemptCount : Int
  lastTxSig : Option Str
  lastError : Option Str
  nextAttemptAt : Int
  lockToken : Option Nat
  lockedAt : Option Int
deriving DecidableEq

/-- A `matches` row (columns no claim mentions are elided, see header). -/
structure MatchRow where
  matchId : Int
  matchStatus : MatchStatus
  player1Pubkey : Str
  player2Pubkey : Option Str
  entryLamports : Int
  winnerPubkey : Option Str
  finalizationReasonCode : Option Str
  finalizationReasonDetail : Option Str
  resultIdempotencyKey : Option Str
  createTxSig : Option Str
  joinTxSig : Option Str
  finalTxSig : Option Str
  createdOnchainAt : Option Int
  joinedOnchainAt : Option Int
  joinExpiresAt : Option Int
  settleExpiresAt : Option Int
  lastError : Option Str
  finalizedAt : Option Int
deriving DecidableEq

/-- Database state for one match: its `matches` row and the at-most-one
`chain_jobs` row keyed by the same `match_id` (unique index on `match_id`). -/
structure DbState where
  m : MatchRow
  job : Option ChainJob
deriving DecidableEq

/-- Commit semantics of a transaction result: an error rolls back to the
pre-transaction state, success installs the new state. -/
def commitTx (s : DbState) (r : Except AppErr DbState) : DbState :=
  match r with
  | .ok s1 => s1
  | .error _ => s

/-- The row inserted by `insert_create_match_record`
(`status = waiting_create_tx`, everything else fresh, no chain job). -/
def initialMatch (matchId : Int) (player1 : Str) (entryLamports : Int) : DbState :=
  { m := { matchId := matchId, matchStatus := .waitingCreateTx,
           player1Pubkey := player1, player2Pubkey := none,
           entryLamports := entryLamports, winnerPubkey := none,
           finalizationReasonCode := none, finalizationReasonDetail := none,
           resultIdempotencyKey := none, createTxSig := none, joinTxSig := none,
           finalTxSig := none, createdOnchainAt := none, joinedOnchainAt := none,
           joinExpiresAt := none, settleExpiresAt := none, lastError := none,
           finalizedAt := none },
    job := none }

/- ==================== db/matches.rs : conditional updates ==================== -/

/-- Model of `mark_match_created_on_chain`: single unconditional-row UPDATE,
status moves only from `waiting_create_tx`, signature/timestamps are coalesced. -/
def mark_match_created_on_chain (createTxSig : Str) (createdOnchainAt joinExpiresAt : Int)
    (s : DbState) : Except AppErr DbState :=
  .ok { s with m := { s.m with
    matchStatus := if s.m.matchStatus = .waitingCreateTx then .createdOnChain else s.m.matchStatus,
    createTxSig := coalesce s.m.createTxSig (some createTxSig),
    createdOnchainAt := coalesce s.m.createdOnchainAt (some createdOnchainAt),
    joinExpiresAt := coalesce s.m.joinExpiresAt (some joinExpiresAt) } }

/-- Model of `mark_match_joined_on_chain`: the UPDATE is guarded by
`player2_pubkey is null or player2_pubkey = $2`; a missed row is `Conflict`. -/
def mark_match_joined_on_chain (player2Pubkey joinTxSig : Str)
    (joinedOnchainAt settleExpiresAt : Int) (s : DbState) : Except AppErr DbState :=
  if s.m.player2Pubkey = none ∨ s.m.player2Pubkey = some player2Pubkey then
    .ok { s with m := { s.m with
      matchStatus := if s.m.matchStatus = .createdOnChain then .joinedOnChain else s.m.matchStatus,
      player2Pubkey := coalesce s.m.player2Pubkey (some player2Pubkey),
      joinTxSig := coalesce s.m.joinTxSig (some joinTxSig),
      joinedOnchainAt := coalesce s.m.joinedOnchainAt (some joinedOnchainAt),
      settleExpiresAt := coalesce s.m.settleExpiresAt (some settleExpiresAt) } }
  else .error .conflict

/- ==================== db/chain_jobs.rs ==================== -/

/-- Parameter struct of `persist_result_and_enqueue`. -/
structure PersistResultAndEnqueueParams where
  matchId : Int
  jobType : ChainJobType
  winnerPubkey : Option Str
  reasonCode : Str
  reasonDetail : Option Str
  idempotencyKey : Str
deriving DecidableEq

/-- Model of the private `update_match_result` UPDATE: the WHERE clause admits
the row when the status is `joined_on_chain`/`in_progress` or the stored
idempotency key already matches, and every previously-recorded result field is
either null or identical; a missed row is `Conflict`. -/
def update_match_result (p : PersistResultAndEnqueueParams) (s : DbState) :
    Except AppErr DbState :=
  let inPlay := s.m.matchStatus = .joinedOnChain ∨ s.m.matchStatus = .inProgress
  if (inPlay ∨ s.m.resultIdempotencyKey = some p.idempotencyKey)
      ∧ (s.m.resultIdempotencyKey = none ∨ s.m.resultIdempotencyKey = some p.idempotencyKey)
      ∧ (s.m.winnerPubkey = none ∨ s.m.winnerPubkey = p.winnerPubkey)
      ∧ (s.m.finalizationReasonCode = none ∨ s.m.finalizationReasonCode = some p.reasonCode) then
    .ok { s with m := { s.m with
      matchStatus := if inPlay then .resultPendingFinalize else s.m.matchStatus,
      finalizationReasonCode := coalesce s.m.finalizationReasonCode (some p.reasonCode),
      finalizationReasonDetail := coalesce s.m.finalizationReasonDetail p.reasonDetail,
      winnerPubkey := coalesce s.m.winnerPubkey p.winnerPubkey,
      resultIdempotencyKey := coalesce s.m.resultIdempotencyKey (some p.idempotencyKey) } }
  else .error .conflict

/-- Model of the private `upsert_chain_job` INSERT ... ON CONFLICT: no existing
row inserts a fresh `pending` job with `next_attempt_at = now`; an existing row
with identical `job_type` and `winner_pubkey` is touched (`updated_at` only, so
the modelled row is unchanged); anything else misses the conditional update and
is `Conflict`. -/
def upsert_chain_job (p : PersistResultAndEnqueueParams) (now : Int) (s : DbState) :
    Except AppErr DbState :=
  match s.job with
  | none =>
    .ok { s with job := some {
        jobType := p.jobType, status := .pending, winnerPubkey := p.winnerPubkey,
        attemptCount := 0, lastTxSig := none, lastError := none,
        nextAttemptAt := now, lockToken := none, lockedAt := none } }
  | some j =>
    if j.jobType = p.jobType ∧ j.winnerPubkey = p.winnerPubkey then .ok s
    else .error .conflict

/-- Model of `persist_result_and_enqueue`: both statements run in one
transaction; any error aborts the whole transaction (callers observe the
rollback through `commitTx`). -/
def persist_result_and_enqueue (p : PersistResultAndEnqueueParams) (now : Int)
    (s : DbState) : Except AppErr DbState :=
  match update_match_result p s with
  | .error e => .error e
  | .ok s1 => upsert_chain_job p now s1

/-- Lease condition of the claim query: unlocked, or `locked_at` missing or
older than 30 seconds. -/
def leaseAvailable (j : ChainJob) (now : Int) : Bool :=
  j.lockToken.isNone || j.lockedAt.isNone ||
    (match j.lockedAt with
     | some t => decide (t < now - 30)
     | none => true)

/-- Job statuses the claim query selects. -/
def claimableStatus (st : ChainJobStatus) : Bool :=
  st = .pending || st = .retrying || st = .submitted

/-- Model of `claim_next_due_finalizer_job` restricted to this match's job:
when the job is due, claimable and lease-free, stamp a fresh lock token and
`locked_at = now`; otherwise the select returns nothing and the transaction
commits without changes. -/
def claim_next_due_finalizer_job (lockToken : Nat) (now : Int) (s : DbState) :
    Except AppErr DbState :=
  match s.job with
  | some j =>
    if claimableStatus j.status ∧ j.nextAttemptAt ≤ now ∧ leaseAvailable j now then
      .ok { s with job := some { j with lockToken := some lockToken, lockedAt := some now } }
    else .ok s
  | none => .ok s

/-- Model of `mark_job_submitted`: the job UPDATE is scoped to
`match_id ∧ lock_token`; zero rows is `Conflict` (whole transaction rolls
back); then the match moves `result_pending_finalize → finalizing`. -/
def mark_job_submitted (lockToken : Nat) (txSig : Str) (s : DbState) :
    Except AppErr DbState :=
  match s.job with
  | some j =>
    if j.lockToken = some lockToken then
      .ok { m := { s.m with
              matchStatus := if s.m.matchStatus = .resultPendingFinalize
                             then .finalizing else s.m.matchStatus,
              lastError := none },
            job := some { j with
                          status := .submitted,
                          lastTxSig := some txSig,
                          attemptCount := j.attemptCount + 1,
                          lastError := none } }
    else .error .conflict
  | none => .error .conflict

/-- Model of the private `mark_job_retry_or_failed` (`nextStatus` is
`retrying` or `failed` as passed by the two public wrappers). -/
def mark_job_retry_or_failed (nextStatus : ChainJobStatus) (lockToken : Nat)
    (errorMessage : Str) (nextAttemptInSeconds : Int) (now : Int)
    (incrementAttemptCount : Bool) (s : DbState) : Except AppErr DbState :=
  match s.job with
  | some j =>
    if j.lockToken = some lockToken then
      .ok { m := { s.m with
              matchStatus := if (s.m.matchStatus = .resultPendingFinalize
                                  ∨ s.m.matchStatus = .finalizing)
                                ∧ nextStatus = .retrying
                             then .finalizing else s.m.matchStatus,
              lastError := some errorMessage },
            job := some { j with
                          status := nextStatus,
                          lastError := some errorMessage,
                          nextAttemptAt := if nextStatus = .retrying
                                           then now + nextAttemptInSeconds
                                           else j.nextAttemptAt,
                          attemptCount := if incrementAttemptCount
                                          then j.attemptCount + 1 else j.attemptCount,
                          lockToken := none,
                          lockedAt := none } }
    else .error .conflict
  | none => .error .conflict

/-- Model of `mark_job_retrying`. -/
def mark_job_retrying (lockToken : Nat) (errorMessage : Str)
    (nextAttemptInSeconds : Int) (now : Int) (incrementAttemptCount : Bool)
    (s : DbState) : Except AppErr DbState :=
  mark_job_retry_or_failed .retrying lockToken errorMessage nextAttemptInSeconds now
    incrementAttemptCount s

/-- Model of `mark_job_failed` (`next_attempt_in_seconds = 0`, untouched on
the `failed` branch). -/
def mark_job_failed (lockToken : Nat) (errorMessage : Str)
    (incrementAttemptCount : Bool) (s : DbState) : Except AppErr DbState :=
  mark_job_retry_or_failed .failed lockToken errorMessage 0 0 incrementAttemptCount s

/-- Model of `mark_job_confirmed_and_finalize_match`: `match_status_to_final_db`
rejects non-terminal targets; the job UPDATE is scoped to the lock token and
zero rows is `Conflict`; then the match row is set to the terminal status with
coalesced `final_tx_sig` and `finalized_at`. -/
def mark_job_confirmed_and_finalize_match (lockToken : Nat) (finalTxSig : Option Str)
    (finalMatchStatus : MatchStatus) (now : Int) (s : DbState) : Except AppErr DbState :=
  if finalMatchStatus = .settled ∨ finalMatchStatus = .refunded then
    match s.job with
    | some j =>
      if j.lockToken = some lockToken then
        .ok { m := { s.m with
                matchStatus := finalMatchStatus,
                finalTxSig := coalesce s.m.finalTxSig finalTxSig,
                finalizedAt := coalesce s.m.finalizedAt (some now),
                lastError := none },
              job := some { j with
                            status := .confirmed,
                            lastTxSig := coalesce j.lastTxSig finalTxSig,
                            lastError := none,
                            lockToken := none,
                            lockedAt := none } }
      else .error .conflict
    | none => .error .conflict
  else .error .internal

/-- Model of `clear_job_lock` (single UPDATE scoped to the lock token;
zero affected rows is not an error). -/
def clear_job_lock (lockToken : Nat) (s : DbState) : Except AppErr DbState :=
  match s.job with
  | some j =>
    if j.lockToken = some lockToken then
      .ok { s with job := some { j with lockToken := none, lockedAt := none } }
    else .ok s
  | none => .ok s

/-- Model of `retry_finalization_job` (admin retry): terminal matches are
`Conflict`; the job reset is guarded by `status <> 'confirmed'` (a confirmed
job is `Conflict`, a missing job `NotFound`); then the match moves
`result_pending_finalize | finalizing → finalizing`. -/
def retry_finalization_job (now : Int) (s : DbState) : Except AppErr DbState :=
  if s.m.matchStatus = .settled ∨ s.m.matchStatus = .refunded then .error .conflict
  else
    match s.job with
    | some j =>
      if j.status ≠ .confirmed then
        .ok { m := { s.m with
                matchStatus := if s.m.matchStatus = .resultPendingFinalize
                                  ∨ s.m.matchStatus = .finalizing
                               then .finalizing else s.m.matchStatus,
                lastError := none },
              job := some { j with
                            status := .pending,
                            nextAttemptAt := now,
                            lastError := none,
                            lockToken := none,
                            lockedAt := none } }
      else .error .conflict
    | none => .error .notFound

/- ==================== worker/timeout_watcher.rs + its enqueue ==================== -/

/-- `MAX_ENQUEUES_PER_TICK` in `worker/timeout_watcher.rs`. -/
def MAX_ENQUEUES_PER_TICK : Nat := 25

/-- Eligibility predicate of the candidate SELECT in
`enqueue_next_expired_join_timeout_force_refund`: `created_on_chain`, no
player2, a non-null expired `join_expires_at`, and no chain-job row. -/
def joinTimeoutEligible (now : Int) (row : MatchRow) (job : Option ChainJob) : Bool :=
  row.matchStatus = .createdOnChain && row.player2Pubkey.isNone &&
    (match row.joinExpiresAt with
     | some t => decide (t ≤ now)
     | none => false) &&
    job.isNone

/-- The auto idempotency key `auto-join-timeout-<match_id>`. -/
def autoJoinTimeoutKey (matchId : Int) : Str :=
  ("auto-join-timeout-".toList) ++ (toString matchId).toList

/-- The fresh `force_refund` job row the watcher inserts. -/
def watcherRefundJob (now : Int) : ChainJob :=
  { jobType := .forceRefund, status := .pending, winnerPubkey := none,
    attemptCount := 0, lastTxSig := none, lastError := none,
    nextAttemptAt := now, lockToken := none, lockedAt := none }

/-- The match-row update the watcher applies to the selected candidate. -/
def watcherMarkRefundPending (now : Int) (row : MatchRow) : MatchRow :=
  { row with
    matchStatus := .resultPendingFinalize,
    finalizationReasonCode := coalesce row.finalizationReasonCode (some ("join_timeout".toList)),
    finalizationReasonDetail := coalesce row.finalizationReasonDetail
      (some ("timeout_watcher".toList)),
    winnerPubkey := none,
    resultIdempotencyKey := coalesce row.resultIdempotencyKey (some (autoJoinTimeoutKey row.matchId)),
    lastError := none }
-- `now` is consumed by the inserted job row; the match row's time columns are elided.

/-- Model of `enqueue_next_expired_join_timeout_force_refund` restricted to a
single match: when this match is eligible, mark it refund-pending and insert
the `force_refund` job in one transaction; otherwise the select finds nothing
and the transaction commits with no change. -/
def enqueue_join_timeout_for_match (now : Int) (s : DbState) : Except AppErr DbState :=
  if joinTimeoutEligible now s.m s.job then
    .ok { m := watcherMarkRefundPending now s.m, job := some (watcherRefundJob now) }
  else .ok s

/-- Global watcher state: all match rows with their jobs. -/
abbrev WatcherDb := List DbState

/-- Sort key `(join_expires_at asc, match_id asc)` comparison for candidates
(eligible rows always have `join_expires_at` non-null). -/
def candidateKeyLt (a b : DbState) : Bool :=
  match a.m.joinExpiresAt, b.m.joinExpiresAt with
  | some ta, some tb => decide (ta < tb) || (decide (ta = tb) && decide (a.m.matchId < b.m.matchId))
  | some _, none => true
  | none, _ => false

/-- The candidate the SELECT returns: the eligible row minimal in
`(join_expires_at, match_id)` order. -/
def selectJoinTimeoutCandidate (now : Int) (g : WatcherDb) : Option Int :=
  match g.filter (fun s => joinTimeoutEligible now s.m s.job) with
  | [] => none
  | c :: cs => some ((cs.foldl (fun best x => if candidateKeyLt x best then x else best) c).m.matchId)

/-- Model of `enqueue_next_expired_join_timeout_force_refund` over the whole
table: pick the candidate, apply the guarded update and job insert to its row. -/
def enqueue_next_expired_join_timeout_force_refund (now : Int) (g : WatcherDb) :
    Option (WatcherDb × Int) :=
  match selectJoinTimeoutCandidate now g with
  | none => none
  | some mid =>
    some (g.map (fun s =>
      if s.m.matchId = mid ∧ joinTimeoutEligible now s.m s.job then
        { m := watcherMarkRefundPending now s.m, job := some (watcherRefundJob now) }
      else s), mid)

/-- The bounded loop body of `process_tick`: run up to `fuel` enqueues,
stopping as soon as one returns nothing. -/
def processTickLoop (now : Int) : Nat → WatcherDb → Nat → WatcherDb × Nat
  | 0, g, k => (g, k)
  | fuel + 1, g, k =>
    match enqueue_next_expired_join_timeout_force_refund now g with
    | none => (g, k)
    | some (g1, _) => processTickLoop now fuel g1 (k + 1)

/-- Model of `process_tick` in `worker/timeout_watcher.rs`: at most
`MAX_ENQUEUES_PER_TICK` iterations, early exit when no candidate remains;
returns the final table and the number of enqueued jobs. -/
def process_tick (now : Int) (g : WatcherDb) : WatcherDb × Nat :=
  processTickLoop now MAX_ENQUEUES_PER_TICK g 0

/- ==================== api/matches.rs : submit_result ==================== -/

/-- Request body of POST `/matches/:match_id/result` (`ResultRequest` DTO). -/
structure ResultRequest where
  outcome : ResultOutcome
  winnerPubkey : Option Str
  reasonCode : Str
  reasonDetail : Option Str
  idempotencyKey : Str
deriving DecidableEq

/-- Model of `validate_internal_headers_stub` in `api/matches.rs`: it only
checks that the configured secret is non-empty; it receives no headers and
performs no HMAC verification (the TODO at `api/matches.rs:474`). -/
def validate_internal_headers_stub (secret : Str) : Except AppErr Unit :=
  if secret = [] then .error .unauthorized else .ok ()

/-- Model of the `submit_result` handler in `api/matches.rs`, acting on the
match's database state. Note the handler consults only the configured secret:
no timestamp, nonce or signature header reaches it. -/
def submit_result (secret : Str) (req : ResultRequest) (now : Int) (s : DbState) :
    Except AppErr DbState := do
  let _ ← validate_internal_headers_stub secret
  let idempotencyKey := trimStr req.idempotencyKey
  if idempotencyKey = [] then throw .badRequest
  let reasonCode := trimStr req.reasonCode
  if reasonCode = [] then throw .badRequest
  let reasonDetail :=
    match req.reasonDetail.map trimStr with
    | some d => if d = [] then none else some d
    | none => none
  if s.m.matchStatus = .waitingCreateTx ∨ s.m.matchStatus = .createdOnChain then
    throw .conflict
  let winnerPubkey ←
    match req.outcome with
    | .winner => do
      let winner := trimStr (req.winnerPubkey.getD [])
      if winner = [] then throw .badRequest
      match s.m.player2Pubkey with
      | none => throw .conflict
      | some player2 =>
        if winner ≠ s.m.player1Pubkey ∧ winner ≠ player2 then throw .conflict
        else pure (some winner)
    | .broken =>
      if (req.winnerPubkey.map trimStr).getD [] ≠ [] then throw .badRequest
      else pure none
  let finalizationAction :=
    match req.outcome with
    | .winner => ChainJobType.settle
    | .broken => ChainJobType.forceRefund
  persist_result_and_enqueue
    { matchId := s.m.matchId, jobType := finalizationAction,
      winnerPubkey := winnerPubkey, reasonCode := reasonCode,
      reasonDetail := reasonDetail, idempotencyKey := idempotencyKey } now s

/- ==================== transition system over one match ==================== -/

/-- One committed transaction of the system touching this match's rows: the
two confirm endpoints, result submission, admin retry, the timeout watcher's
enqueue, and every finalizer job update. Errors roll transactions back, so
only `.ok` results produce transitions. -/
inductive Step : DbState → DbState → Prop
  | createConfirm (sig : Str) (tCreated tExpires : Int) (s s1 : DbState)
      (h : mark_match_created_on_chain sig tCreated tExpires s = .ok s1) : Step s s1
  | joinConfirm (p2 sig : Str) (tJoined tSettle : Int) (s s1 : DbState)
      (h : mark_match_joined_on_chain p2 sig tJoined tSettle s = .ok s1) : Step s s1
  | submitResult (p : PersistResultAndEnqueueParams) (now : Int) (s s1 : DbState)
      (h : persist_result_and_enqueue p now s = .ok s1) : Step s s1
  | adminRetry (now : Int) (s s1 : DbState)
      (h : retry_finalization_job now s = .ok s1) : Step s s1
  | watcherEnqueue (now : Int) (s s1 : DbState)
      (h : enqueue_join_timeout_for_match now s = .ok s1) : Step s s1
  | claimJob (lockToken : Nat) (now : Int) (s s1 : DbState)
      (h : claim_next_due_finalizer_job lockToken now s = .ok s1) : Step s s1
  | jobSubmitted (lockToken : Nat) (sig : Str) (s s1 : DbState)
      (h : mark_job_submitted lockToken sig s = .ok s1) : Step s s1
  | jobRetrying (lockToken : Nat) (err : Str) (backoff now : Int) (inc : Bool) (s s1 : DbState)
      (h : mark_job_retrying lockToken err backoff now inc s = .ok s1) : Step s s1
  | jobFailed (lockToken : Nat) (err : Str) (inc : Bool) (s s1 : DbState)
      (h : mark_job_failed lockToken err inc s = .ok s1) : Step s s1
  | jobConfirmed (lockToken : Nat) (sig : Option Str) (fin : MatchStatus) (now : Int)
      (s s1 : DbState)
      (h : mark_job_confirmed_and_finalize_match lockToken sig fin now s = .ok s1) : Step s s1
  | lockCleared (lockToken : Nat) (s s1 : DbState)
      (h : clear_job_lock lockToken s = .ok s1) : Step s s1

/-- A database state reachable from some freshly inserted match row. -/
def Reachable (s : DbState) : Prop :=
  ∃ matchId player1 entryLamports,
    Relation.ReflTransGen Step (initialMatch matchId player1 entryLamports) s

/-- Terminal match statuses. -/
def terminalStatus (st : MatchStatus) : Prop :=
  st = .settled ∨ st = .refunded

/-- The inductive invariant used for the absorption theorems: a confirmed job
is unlocked, and a terminal match owns a confirmed job. -/
def DbInv (s : DbState) : Prop :=
  (∀ j, s.job = some j → j.status = .confirmed → j.lockToken = none) ∧
  (terminalStatus s.m.matchStatus → ∃ j, s.job = some j ∧ j.status = .confirmed)

/- ==================== concrete fixtures for witnesses ==================== -/

/-- A freshly created example match. -/
def exState0 : DbState := initialMatch 1 ("P1".toList) 100

/-- After create-confirm. -/
def exState1 : DbState :=
  commitTx exState0 (mark_match_created_on_chain ("ct".toList) 10 20 exState0)

/-- After join-confirm with player2. -/
def exState2 : DbState :=
  commitTx exState1 (mark_match_joined_on_chain ("P2".toList) ("jt".toList) 30 40 exState1)

/-- The submitted result: player2 wins. -/
def exParams : PersistResultAndEnqueueParams :=
  { matchId := 1, jobType := .settle, winnerPubkey := some ("P2".toList),
    reasonCode := ("gg".toList), reasonDetail := none, idempotencyKey := ("k1".toList) }

/-- A conflicting second result for the same match. -/
def exParamsDiff : PersistResultAndEnqueueParams :=
  { matchId := 1, jobType := .forceRefund, winnerPubkey := none,
    reasonCode := ("gg".toList), reasonDetail := none, idempotencyKey := ("k2".toList) }

/-- After result submission: job enqueued. -/
def exState3 : DbState := commitTx exState2 (persist_result_and_enqueue exParams 50 exState2)

/-- The pending chain job of `exState3`. -/
def exJob3 : ChainJob :=
  { jobType := .settle, status := .pending, winnerPubkey := some ("P2".toList),
    attemptCount := 0, lastTxSig := none, lastError := none, nextAttemptAt := 50,
    lockToken := none, lockedAt := none }

/-- After the finalizer claims the job. -/
def exState4 : DbState := commitTx exState3 (claim_next_due_finalizer_job 77 60 exState3)

/-- After the transaction is submitted. -/
def exState5 : DbState := commitTx exState4 (mark_job_submitted 77 ("sig1".toList) exState4)

/-- After confirmation: the match is settled, the job confirmed. -/
def exState6 : DbState :=
  commitTx exState5 (mark_job_confirmed_and_finalize_match 77 (some ("sig1".toList)) .settled 70 exState5)

/-- The confirmed chain job of `exState6`. -/
def exConfirmedJob : ChainJob :=
  { jobType := .settle, status := .confirmed, winnerPubkey := some ("P2".toList),
    attemptCount := 1, lastTxSig := some ("sig1".toList), lastError := none,
    nextAttemptAt := 50, lockToken := none, lockedAt := none }

/-- A later create-confirm replay against the settled match. -/
def exState7 : DbState :=
  commitTx exState6 (mark_match_created_on_chain ("x".toList) 1 2 exState6)

/-- The winner-result request of the C1 scenario. -/
def exJoinedReq : ResultRequest :=
  { outcome := .winner, winnerPubkey := some ("P2".toList), reasonCode := ("gg".toList),
    reasonDetail := none, idempotencyKey := ("k1".toList) }

/-- An expired created-on-chain match the timeout watcher should refund. -/
def exWatcherRow : DbState :=
  { m := { matchId := 3, matchStatus := .createdOnChain, player1Pubkey := ("P1".toList),
           player2Pubkey := none, entryLamports := 5, winnerPubkey := none,
           finalizationReasonCode := none, finalizationReasonDetail := none,
           resultIdempotencyKey := none, createTxSig := some ("ct".toList), joinTxSig := none,
           finalTxSig := none, createdOnchainAt := some 10, joinedOnchainAt := none,
           joinExpiresAt := some 40, settleExpiresAt := none, lastError := none,
           finalizedAt := none },
    job := none }

/- ==================== theorems ==================== -/

theorem base36Digit_inj_lt : ∀ a < 36, ∀ b < 36, base36Digit a = base36Digit b → a = b := by
  decide

theorem base36Digit_mem_alphabet : ∀ d : Nat, d < 36 → base36Digit d ∈ base36Alphabet := by
  decide

theorem map_base36Digit_inj : ∀ l1 l2 : List Nat, (∀ x ∈ l1, x < 36) → (∀ x ∈ l2, x < 36) →
    l1.map base36Digit = l2.map base36Digit → l1 = l2 := by
  intro l1
  induction l1 with
  | nil =>
    intro l2 _ _ h
    cases l2 with
    | nil => rfl
    | cons b bs => simp at h
  | cons a as ih =>
    intro l2 h1 h2 h
    cases l2 with
    | nil => simp at h
    | cons b bs =>
      simp only [List.map_cons, List.cons.injEq] at h
      have ha : a < 36 := h1 a (List.mem_cons_self a as)
      have hb : b < 36 := h2 b (List.mem_cons_self b bs)
      have hab : a = b := base36Digit_inj_lt a ha b hb h.1
      have htl : as = bs := by
        refine ih bs (fun x hx => h1 x (List.mem_cons_of_mem a hx))
          (fun x hx => h2 x (List.mem_cons_of_mem b hx)) h.2
      rw [hab, htl]

theorem to_base36_digits_eq_digits (v : Nat) :
    to_base36_digits v = ((Nat.digits 36 v).reverse).map base36Digit := by
  induction v using Nat.strong_induction_on with
  | _ v ih =>
    rw [to_base36_digits]
    by_cases h : v = 0
    · simp [h]
    · have hpos : 0 < v := Nat.pos_of_ne_zero h
      rw [dif_neg h, Nat.digits_def' (b := 36) (by norm_num) hpos]
      have hlt : v / 36 < v := Nat.div_lt_self hpos (by norm_num)
      rw [ih (v / 36) hlt]
      simp

theorem to_base36_pos_eq (v : Nat) (hv : 0 < v) :
    to_base36 v = ((Nat.digits 36 v).reverse).map base36Digit := by
  rw [to_base36, if_neg (Nat.pos_iff_ne_zero.mp hv), to_base36_digits_eq_digits]

theorem to_base36_inj (a b : Nat) (ha : 0 < a) (hb : 0 < b)
    (h : to_base36 a = to_base36 b) : a = b := by
  rw [to_base36_pos_eq a ha, to_base36_pos_eq b hb] at h
  have hrev : (Nat.digits 36 a).reverse = (Nat.digits 36 b).reverse := by
    refine map_base36Digit_inj _ _ ?_ ?_ h
    · intro x hx
      exact Nat.digits_lt_base (by norm_num) (List.mem_reverse.mp hx)
    · intro x hx
      exact Nat.digits_lt_base (by norm_num) (List.mem_reverse.mp hx)
  have hdig : Nat.digits 36 a = Nat.digits 36 b := List.reverse_injective hrev
  calc a = Nat.ofDigits 36 (Nat.digits 36 a) := (Nat.ofDigits_digits 36 a).symm
    _ = Nat.ofDigits 36 (Nat.digits 36 b) := by rw [hdig]
    _ = b := Nat.ofDigits_digits 36 b

/-- C6: `join_code_from_match_id` maps every positive id to the letter M
followed by the uppercase base-36 encoding of the id (digits 0-9 and A-Z only),
is injective over positive 64-bit ids, and rejects non-positive ids. -/
theorem c6_join_code_base36 :
    (∀ i : Int, i ≤ 0 → join_code_from_match_id i = .error .internal)
    ∧ (∀ i : Int, 0 < i →
        join_code_from_match_id i = .ok ('M' :: specBase36Upper i.toNat)
        ∧ ∀ c ∈ to_base36 i.toNat, c ∈ base36Alphabet)
    ∧ (∀ i j : Int, 0 < i → 0 < j → i ≤ 9223372036854775807 → j ≤ 9223372036854775807 →
        join_code_from_match_id i = join_code_from_match_id j → i = j) := by
  refine ⟨?_, ?_, ?_⟩
  · intro i hi
    simp [join_code_from_match_id, hi]
  · intro i hi
    have hnat : 0 < i.toNat := by omega
    constructor
    · rw [join_code_from_match_id, if_neg (by omega), specBase36Upper,
        ← to_base36_pos_eq i.toNat hnat]
    · intro c hc
      rw [to_base36_pos_eq i.toNat hnat] at hc
      rcases List.mem_map.mp hc with ⟨d, hd, hdc⟩
      have : d < 36 := Nat.digits_lt_base (by norm_num) (List.mem_reverse.mp hd)
      rw [← hdc]
      exact base36Digit_mem_alphabet d this
  · intro i j hi hj _ _ h
    rw [join_code_from_match_id, join_code_from_match_id, if_neg (by omega),
      if_neg (by omega)] at h
    have hcode : to_base36 i.toNat = to_base36 j.toNat := by
      have := Except.ok.inj h
      exact List.cons.inj this |>.2
    have := to_base36_inj i.toNat j.toNat (by omega) (by omega) hcode
    omega

theorem c6_join_code_base36_witness :
    join_code_from_match_id (-5) = .error .internal
    ∧ join_code_from_match_id 37 = .ok ('M' :: specBase36Upper (Int.toNat 37))
    ∧ (∀ c ∈ to_base36 (Int.toNat 37), c ∈ base36Alphabet)
    ∧ (5 : Int) = 5 := by
  refine ⟨c6_join_code_base36.1 (-5) (by decide),
    (c6_join_code_base36.2.1 37 (by decide)).1,
    (c6_join_code_base36.2.1 37 (by decide)).2,
    c6_join_code_base36.2.2 5 5 (by decide) (by decide) (by decide) (by decide) rfl⟩

/-- C7: the retry backoff equals `min(2 ^ clamp(attempts, 1, 6), 60)` seconds:
2 seconds for at most one attempt, doubling up to five attempts, and capped at
60 seconds from six attempts on. -/
theorem c7_retry_backoff_policy :
    (∀ n : Int, retry_backoff_seconds n = min (2 ^ (max 1 (min n 6)).toNat) MAX_BACKOFF_SECONDS)
    ∧ (∀ n : Int, n ≤ 1 → retry_backoff_seconds n = 2)
    ∧ (∀ n : Int, 1 ≤ n → n ≤ 4 → retry_backoff_seconds (n + 1) = 2 * retry_backoff_seconds n)
    ∧ (∀ n : Int, 6 ≤ n → retry_backoff_seconds n = 60) := by
  have hform : ∀ n : Int, retry_backoff_seconds n =
      if n ≤ 1 then 2 else if n ≤ 5 then 2 ^ n.toNat else 60 := by
    intro n
    rcases le_or_lt n 1 with h1 | h1
    · have : max 1 (min n 6) = 1 := by omega
      simp [retry_backoff_seconds, this, h1, MAX_BACKOFF_SECONDS]
    · rcases le_or_lt n 5 with h5 | h5
      · have hclamp : max 1 (min n 6) = n := by omega
        have hle : (2 : Int) ^ n.toNat ≤ 32 := by
          calc (2 : Int) ^ n.toNat ≤ 2 ^ 5 := by
                refine pow_le_pow_right₀ (by norm_num) (by omega)
            _ = 32 := by norm_num
        have : min ((2 : Int) ^ n.toNat) MAX_BACKOFF_SECONDS = 2 ^ n.toNat := by
          rw [MAX_BACKOFF_SECONDS]
          omega
        simp [retry_backoff_seconds, hclamp, this]
        omega
      · have hclamp : max 1 (min n 6) = 6 := by omega
        simp [retry_backoff_seconds, hclamp, MAX_BACKOFF_SECONDS]
        omega
  refine ⟨?_, ?_, ?_, ?_⟩
  · intro n
    rfl
  · intro n hn
    rw [hform n, if_pos hn]
  · intro n h1 h4
    rw [hform (n + 1), hform n, if_neg (by omega)]
    rcases eq_or_lt_of_le h1 with h | h
    · rw [← h]
      decide
    · rw [if_pos (by omega), if_neg (by omega), if_pos (by omega)]
      have : (n + 1).toNat = n.toNat + 1 := by omega
      rw [this, pow_succ]
      ring
  · intro n hn
    rw [hform n, if_neg (by omega), if_neg (by omega)]

theorem c7_retry_backoff_policy_witness :
    retry_backoff_seconds 0 = 2
    ∧ retry_backoff_seconds 3 = 2 * retry_backoff_seconds 2
    ∧ retry_backoff_seconds 9 = 60 :=
  ⟨c7_retry_backoff_policy.2.1 0 (by decide),
   c7_retry_backoff_policy.2.2.1 2 (by decide) (by decide),
   c7_retry_backoff_policy.2.2.2 9 (by decide)⟩

set_option maxRecDepth 10000 in
/-- C5 counterexample: the claim's 138-byte threshold is wrong. This input is
exactly 138 bytes long, starts with the genuine `SHA256("account:Game")[0..8]`
discriminator and carries the valid state byte 0, yet `decode_game_account`
rejects it: the body layout needs 131 bytes, so the real precondition is
length ≥ 8 + 131 = 139. -/
theorem c5_decode_length_138_rejected :
    (game_account_discriminator ++ List.replicate 130 0).length = 138
    ∧ (game_account_discriminator ++ List.replicate 130 0).take 8 = game_account_discriminator
    ∧ (game_account_discriminator ++ List.replicate 130 0).get? 120 = some 0
    ∧ decode_game_account (game_account_discriminator ++ List.replicate 130 0) = none := by
  decide

/-- C5 (amended): the only length precondition `decode_game_account` enforces
is length ≥ 8 + 131 = 139 bytes: shorter inputs always error, and every input
of at least 139 bytes whose first 8 bytes equal `SHA256("account:Game")[0..8]`
and whose state byte (offset 120) is a valid variant 0-3 decodes successfully. -/
theorem c5_decode_length_precondition :
    (∀ data : List Nat, data.length < 139 → decode_game_account data = none)
    ∧ (∀ data : List Nat, ∀ st : Nat, 139 ≤ data.length →
        data.take 8 = game_account_discriminator →
        data.get? 120 = some st → st < 4 →
        (decode_game_account data).isSome = true) := by
  constructor
  · intro data h
    rw [decode_game_account, if_pos (by rw [BODY_LEN]; omega)]
  · intro data st hlen hdisc hst hstlt
    have r1 : read_fixed 32 data 8 = some ((data.drop 8).take 32, 40) := by
      rw [read_fixed, if_pos (by omega)]
    have r2 : read_fixed 32 data 40 = some ((data.drop 40).take 32, 72) := by
      rw [read_fixed, if_pos (by omega)]
    have r3 : read_u64 data 72 = some (leVal ((data.drop 72).take 8), 80) := by
      rw [read_u64, read_fixed, if_pos (by omega)]
    have r4 : read_fixed 32 data 80 = some ((data.drop 80).take 32, 112) := by
      rw [read_fixed, if_pos (by omega)]
    have r5 : read_u64 data 112 = some (leVal ((data.drop 112).take 8), 120) := by
      rw [read_u64, read_fixed, if_pos (by omega)]
    have r6 : read_u8 data 120 = some (st, 121) := by
      rw [read_u8, hst]
    have r7 : read_i64 data 121 = some (
        (if leVal ((data.drop 121).take 8) < 9223372036854775808
         then (leVal ((data.drop 121).take 8) : Int)
         else (leVal ((data.drop 121).take 8) : Int) - 18446744073709551616), 129) := by
      rw [read_i64, read_fixed, if_pos (by omega)]
    have r8 : read_i64 data 129 = some (
        (if leVal ((data.drop 129).take 8) < 9223372036854775808
         then (leVal ((data.drop 129).take 8) : Int)
         else (leVal ((data.drop 129).take 8) : Int) - 18446744073709551616), 137) := by
      rw [read_i64, read_fixed, if_pos (by omega)]
    obtain ⟨b137, hb137⟩ : ∃ b, data.get? 137 = some b := by
      rcases hx : data.get? 137 with _ | b
      · rw [List.get?_eq_none] at hx
        omega
      · exact ⟨b, rfl⟩
    obtain ⟨b138, hb138⟩ : ∃ b, data.get? 138 = some b := by
      rcases hx : data.get? 138 with _ | b
      · rw [List.get?_eq_none] at hx
        omega
      · exact ⟨b, rfl⟩
    have r9 : read_u8 data 137 = some (b137, 138) := by
      rw [read_u8, hb137]
    have r10 : read_u8 data 138 = some (b138, 139) := by
      rw [read_u8, hb138]
    rw [decode_game_account]
    rw [if_neg (by rw [BODY_LEN]; omega), if_neg (by simp [hdisc])]
    simp only [r1, r2, r3, r4, r5, r6, r7, r8, r9, r10]
    interval_cases st <;> simp [gameStateOfByte]

set_option maxRecDepth 10000 in
theorem c5_decode_length_precondition_witness :
    decode_game_account [] = none
    ∧ (decode_game_account (game_account_discriminator ++ List.replicate 131 0)).isSome = true :=
  ⟨c5_decode_length_precondition.1 [] (by decide),
   c5_decode_length_precondition.2 (game_account_discriminator ++ List.replicate 131 0) 0
     (by decide) (by decide) (by decide) (by decide)⟩

theorem dropWhile_ws_eq_self (l : Str) (h : ∀ c ∈ l, isWsChar c = false) :
    l.dropWhile isWsChar = l := by
  cases l with
  | nil => rfl
  | cons a as =>
    rw [List.dropWhile_cons, h a (List.mem_cons_self a as)]
    simp

theorem trimStr_eq_self (l : Str) (h : ∀ c ∈ l, isWsChar c = false) : trimStr l = l := by
  rw [trimStr, dropWhile_ws_eq_self l h, dropWhile_ws_eq_self]
  · rw [List.reverse_reverse]
  · intro c hc
    exact h c (List.mem_reverse.mp hc)

theorem hexDigitVal_not_ws (c : Char) (v : Nat) (h : hexDigitVal c = some v) :
    isWsChar c = false := by
  rw [hexDigitVal] at h
  split_ifs at h with h1 h2 h3
  all_goals
    simp only [isWsChar, Bool.or_eq_false_iff, decide_eq_false_iff_not]
  · refine ⟨⟨⟨?_, ?_⟩, ?_⟩, ?_⟩ <;> intro hc <;> rw [hc] at h1 <;> revert h1 <;> decide
  · refine ⟨⟨⟨?_, ?_⟩, ?_⟩, ?_⟩ <;> intro hc <;> rw [hc] at h2 <;> revert h2 <;> decide
  · refine ⟨⟨⟨?_, ?_⟩, ?_⟩, ?_⟩ <;> intro hc <;> rw [hc] at h3 <;> revert h3 <;> decide

theorem hexDecode_no_ws_aux : ∀ (n : Nat) (l : Str), l.length ≤ n → ∀ m, hexDecode l = some m →
    ∀ c ∈ l, isWsChar c = false := by
  intro n
  induction n with
  | zero =>
    intro l hl m hdec c hc
    cases l with
    | nil => simp at hc
    | cons a as => simp at hl
  | succ n ih =>
    intro l hl m hdec c hc
    match l, hc with
    | [a], hc =>
      rw [hexDecode] at hdec
      exact absurd hdec (by simp)
    | a :: b :: rest, hc =>
      rw [hexDecode] at hdec
      rcases ha : hexDigitVal a with _ | va <;> rw [ha] at hdec
      · simp at hdec
      rcases hb : hexDigitVal b with _ | vb <;> rw [hb] at hdec
      · simp at hdec
      rcases hr : hexDecode rest with _ | mr <;> rw [hr] at hdec
      · simp at hdec
      rcases hc with _ | ⟨_, hc⟩
      · exact hexDigitVal_not_ws c va ha
      rcases hc with _ | ⟨_, hc⟩
      · exact hexDigitVal_not_ws c vb hb
      · refine ih rest (by simp at hl; omega) mr hr c hc

theorem hexDecode_no_ws (l : Str) (m : List Nat) (h : hexDecode l = some m) :
    ∀ c ∈ l, isWsChar c = false :=
  hexDecode_no_ws_aux l.length l le_rfl m h

theorem lower_isPrefixOf_lower (l : Str) :
    sigMarkerLower.isPrefixOf (sigMarkerLower ++ l) = true := by
  simp [sigMarkerLower, List.isPrefixOf]

theorem lower_isPrefixOf_upper (l : Str) :
    sigMarkerLower.isPrefixOf (sigMarkerUpper ++ l) = false := by
  simp [sigMarkerLower, sigMarkerUpper, List.isPrefixOf]

theorem upper_isPrefixOf_upper (l : Str) :
    sigMarkerUpper.isPrefixOf (sigMarkerUpper ++ l) = true := by
  simp [sigMarkerUpper, List.isPrefixOf]

theorem parse_signature_hex_marker (marker hexsig : Str) (mac : List Nat)
    (hm : marker = sigMarkerLower ∨ marker = sigMarkerUpper)
    (hdec : hexDecode hexsig = some mac) (hne : hexsig ≠ []) :
    parse_signature_hex (marker ++ hexsig) = .ok mac := by
  have hmws : ∀ c ∈ marker, isWsChar c = false := by
    rcases hm with rfl | rfl
    · intro c hc
      simp [sigMarkerLower] at hc
      rcases hc with rfl | rfl | rfl | rfl | rfl | rfl | rfl <;> rfl
    · intro c hc
      simp [sigMarkerUpper] at hc
      rcases hc with rfl | rfl | rfl | rfl | rfl | rfl | rfl <;> rfl
  have hnws : ∀ c ∈ marker ++ hexsig, isWsChar c = false := by
    intro c hc
    rcases List.mem_append.mp hc with h | h
    · exact hmws c h
    · exact hexDecode_no_ws hexsig mac hdec c h
  have hdrop : (marker ++ hexsig).drop 7 = hexsig := by
    rcases hm with rfl | rfl
    · exact List.drop_left sigMarkerLower hexsig
    · exact List.drop_left sigMarkerUpper hexsig
  rw [parse_signature_hex]
  simp only [trimStr_eq_self _ hnws]
  rcases hm with rfl | rfl
  · rw [if_pos (lower_isPrefixOf_lower hexsig), hdrop, if_neg hne, hdec]
  · rw [lower_isPrefixOf_upper hexsig]
    simp only [Bool.false_eq_true, if_false]
    rw [if_pos (upper_isPrefixOf_upper hexsig), hdrop, if_neg hne, hdec]

set_option maxRecDepth 40000 in
/-- C8 counterexample: the `sha256=` marker is not treated case-insensitively.
With the correct MAC hex-encoded after the mixed-case marker `Sha256=`, the
verifier rejects the request (the marker is not stripped and `S` is not a hex
digit), while the identical request with the lowercase marker is accepted. -/
theorem c8_mixed_case_marker_rejected :
    verify_internal_hmac ("k".toList) (some ("0".toList)) (some ("n".toList))
      (some (("Sha256=".toList) ++ hexEncode (hmacSha256 (strBytes ("k".toList))
        (strBytes ("0".toList) ++ [46] ++ strBytes ("n".toList) ++ [46] ++ [7]))))
      [7] 0 false = .error .unauthorized
    ∧ verify_internal_hmac ("k".toList) (some ("0".toList)) (some ("n".toList))
      (some (sigMarkerLower ++ hexEncode (hmacSha256 (strBytes ("k".toList))
        (strBytes ("0".toList) ++ [46] ++ strBytes ("n".toList) ++ [46] ++ [7]))))
      [7] 0 false = .ok () := by
  decide

/-- C8 (amended): exactly the markers `sha256=` and `SHA256=` are stripped
from the X-Signature value — for either of these two exact markers followed by
any hex encoding of the correct MAC, the verifier decodes the remainder to the
raw MAC bytes and accepts the request (given a valid timestamp, fresh nonce,
and matching MAC); other case variants of the marker are not stripped. -/
theorem c8_signature_marker_exact :
    ∀ (secret tsH nonceH hexsig : Str) (body : List Nat) (now tv : Int),
      secret ≠ [] →
      parseI64 (trimStr tsH) = some tv →
      |now - tv| ≤ MAX_CLOCK_SKEW_SECONDS →
      trimStr nonceH ≠ [] →
      (trimStr nonceH).length ≤ MAX_NONCE_LEN →
      hexsig ≠ [] →
      hexDecode hexsig = some (hmacSha256 (strBytes secret)
        (strBytes (trimStr tsH) ++ [46] ++ strBytes (trimStr nonceH) ++ [46] ++ body)) →
      verify_internal_hmac secret (some tsH) (some nonceH)
        (some (sigMarkerLower ++ hexsig)) body now false = .ok ()
      ∧ verify_internal_hmac secret (some tsH) (some nonceH)
        (some (sigMarkerUpper ++ hexsig)) body now false = .ok () := by
  intro secret tsH nonceH hexsig body now tv hsecret hts hskew hnonce hnlen hne hdec
  constructor
  all_goals
    rw [verify_internal_hmac, if_neg hsecret]
    simp only [header_value]
    rw [if_neg (by push_neg; exact ⟨hnonce, hnlen⟩)]
    rw [parse_timestamp, hts]
  · simp only [parse_signature_hex_marker sigMarkerLower hexsig _ (Or.inl rfl) hdec hne]
    simp [not_lt.mpr hskew]
  · simp only [parse_signature_hex_marker sigMarkerUpper hexsig _ (Or.inr rfl) hdec hne]
    simp [not_lt.mpr hskew]

set_option maxRecDepth 40000 in
theorem c8_signature_marker_exact_witness :
    verify_internal_hmac ("k".toList) (some ("0".toList)) (some ("n".toList))
      (some (sigMarkerLower ++ hexEncode (hmacSha256 (strBytes ("k".toList))
        (strBytes ("0".toList) ++ [46] ++ strBytes ("n".toList) ++ [46] ++ [7]))))
      [7] 0 false = .ok ()
    ∧ verify_internal_hmac ("k".toList) (some ("0".toList)) (some ("n".toList))
      (some (sigMarkerUpper ++ hexEncode (hmacSha256 (strBytes ("k".toList))
        (strBytes ("0".toList) ++ [46] ++ strBytes ("n".toList) ++ [46] ++ [7]))))
      [7] 0 false = .ok () :=
  c8_signature_marker_exact ("k".toList) ("0".toList) ("n".toList)
    (hexEncode (hmacSha256 (strBytes ("k".toList))
      (strBytes ("0".toList) ++ [46] ++ strBytes ("n".toList) ++ [46] ++ [7])))
    [7] 0 0 (by decide) (by decide) (by decide) (by decide) (by decide)
    (by decide) (by decide)

theorem mark_match_created_ok {sig : Str} {t1 t2 : Int} {s s1 : DbState}
    (h : mark_match_created_on_chain sig t1 t2 s = .ok s1) :
    s1.job = s.job
    ∧ s1.m.matchStatus =
        (if s.m.matchStatus = .waitingCreateTx then .createdOnChain else s.m.matchStatus) := by
  rw [mark_match_created_on_chain] at h
  cases Except.ok.inj h
  exact ⟨rfl, rfl⟩

theorem mark_match_joined_ok {p2 sig : Str} {t1 t2 : Int} {s s1 : DbState}
    (h : mark_match_joined_on_chain p2 sig t1 t2 s = .ok s1) :
    s1.job = s.job
    ∧ s1.m.matchStatus =
        (if s.m.matchStatus = .createdOnChain then .joinedOnChain else s.m.matchStatus) := by
  rw [mark_match_joined_on_chain] at h
  by_cases hg : s.m.player2Pubkey = none ∨ s.m.player2Pubkey = some p2
  · rw [if_pos hg] at h
    cases Except.ok.inj h
    exact ⟨rfl, rfl⟩
  · rw [if_neg hg] at h
    cases h

theorem update_match_result_ok {p : PersistResultAndEnqueueParams} {s s1 : DbState}
    (h : update_match_result p s = .ok s1) :
    s1.job = s.job
    ∧ s1.m.matchStatus =
        (if s.m.matchStatus = .joinedOnChain ∨ s.m.matchStatus = .inProgress
         then .resultPendingFinalize else s.m.matchStatus) := by
  rw [update_match_result] at h
  by_cases hg : ((s.m.matchStatus = .joinedOnChain ∨ s.m.matchStatus = .inProgress)
        ∨ s.m.resultIdempotencyKey = some p.idempotencyKey)
      ∧ (s.m.resultIdempotencyKey = none ∨ s.m.resultIdempotencyKey = some p.idempotencyKey)
      ∧ (s.m.winnerPubkey = none ∨ s.m.winnerPubkey = p.winnerPubkey)
      ∧ (s.m.finalizationReasonCode = none ∨ s.m.finalizationReasonCode = some p.reasonCode)
  · rw [if_pos hg] at h
    cases Except.ok.inj h
    exact ⟨rfl, rfl⟩
  · rw [if_neg hg] at h
    cases h

theorem upsert_chain_job_ok {p : PersistResultAndEnqueueParams} {now : Int} {s s1 : DbState}
    (h : upsert_chain_job p now s = .ok s1) :
    s1.m = s.m
    ∧ (∀ j, s.job = some j → s1 = s)
    ∧ (s.job = none → ∃ jf, s1.job = some jf ∧ jf.status = .pending ∧ jf.lockToken = none) := by
  rw [upsert_chain_job] at h
  rcases hj : s.job with _ | j <;> rw [hj] at h <;> simp only [] at h
  · cases Except.ok.inj h
    refine ⟨rfl, ?_, ?_⟩
    · intro j2 hji
      cases hji
    · intro _
      exact ⟨_, rfl, rfl, rfl⟩
  · by_cases hg : j.jobType = p.jobType ∧ j.winnerPubkey = p.winnerPubkey
    · rw [if_pos hg] at h
      cases Except.ok.inj h
      refine ⟨rfl, ?_, ?_⟩
      · intro j2 hji
        rfl
      · intro hn
        cases hn
    · rw [if_neg hg] at h
      cases h

theorem persist_result_ok {p : PersistResultAndEnqueueParams} {now : Int} {s s1 : DbState}
    (h : persist_result_and_enqueue p now s = .ok s1) :
    s1.m.matchStatus =
      (if s.m.matchStatus = .joinedOnChain ∨ s.m.matchStatus = .inProgress
       then .resultPendingFinalize else s.m.matchStatus)
    ∧ (∀ j, s.job = some j → s1.job = some j)
    ∧ (s.job = none → ∃ jf, s1.job = some jf ∧ jf.status = .pending ∧ jf.lockToken = none) := by
  rw [persist_result_and_enqueue] at h
  rcases hu : update_match_result p s with e | s2 <;> rw [hu] at h
  · cases h
  · obtain ⟨hjob2, hst2⟩ := update_match_result_ok hu
    obtain ⟨hm1, hsame, hfresh⟩ := upsert_chain_job_ok h
    refine ⟨by rw [hm1, hst2], ?_, ?_⟩
    · intro j hji
      have := hsame j (by rw [hjob2, hji])
      rw [this, hjob2, hji]
    · intro hn
      obtain ⟨jf, hjf, hp, hl⟩ := hfresh (by rw [hjob2, hn])
      exact ⟨jf, hjf, hp, hl⟩

theorem retry_finalization_ok {now : Int} {s s1 : DbState}
    (h : retry_finalization_job now s = .ok s1) :
    ¬ terminalStatus s.m.matchStatus
    ∧ (∃ j, s.job = some j ∧ j.status ≠ .confirmed)
    ∧ (∃ jr, s1.job = some jr ∧ jr.status = .pending ∧ jr.lockToken = none)
    ∧ s1.m.matchStatus =
        (if s.m.matchStatus = .resultPendingFinalize ∨ s.m.matchStatus = .finalizing
         then .finalizing else s.m.matchStatus) := by
  rw [retry_finalization_job] at h
  by_cases hterm : s.m.matchStatus = .settled ∨ s.m.matchStatus = .refunded
  · rw [if_pos hterm] at h
    cases h
  · rw [if_neg hterm] at h
    rcases hj : s.job with _ | j <;> rw [hj] at h <;> simp only [] at h
    · cases h
    · by_cases hconf : j.status ≠ .confirmed
      · rw [if_pos hconf] at h
        cases Except.ok.inj h
        exact ⟨hterm, ⟨j, rfl, hconf⟩, ⟨_, rfl, rfl, rfl⟩, rfl⟩
      · rw [if_neg hconf] at h
        cases h

theorem enqueue_join_timeout_ok {now : Int} {s s1 : DbState}
    (h : enqueue_join_timeout_for_match now s = .ok s1) :
    (joinTimeoutEligible now s.m s.job = false ∧ s1 = s)
    ∨ (s.m.matchStatus = .createdOnChain ∧ s.job = none
       ∧ s1.m.matchStatus = .resultPendingFinalize
       ∧ s1.job = some (watcherRefundJob now)) := by
  rw [enqueue_join_timeout_for_match] at h
  by_cases helig : joinTimeoutEligible now s.m s.job = true
  · right
    have hparts := helig
    rw [joinTimeoutEligible] at hparts
    simp only [Bool.and_eq_true, decide_eq_true_eq, Option.isNone_iff_eq_none] at hparts
    rw [if_pos helig] at h
    cases Except.ok.inj h
    exact ⟨hparts.1.1.1, hparts.2, rfl, rfl⟩
  · left
    rw [if_neg helig] at h
    cases Except.ok.inj h
    exact ⟨by simpa using helig, rfl⟩

theorem claim_job_ok {tok : Nat} {now : Int} {s s1 : DbState}
    (h : claim_next_due_finalizer_job tok now s = .ok s1) :
    s1 = s
    ∨ (∃ j, s.job = some j ∧ claimableStatus j.status = true ∧ s1.m = s.m
        ∧ s1.job = some { j with lockToken := some tok, lockedAt := some now }) := by
  rw [claim_next_due_finalizer_job] at h
  rcases hj : s.job with _ | j <;> rw [hj] at h <;> simp only [] at h
  · left
    exact (Except.ok.inj h).symm
  · by_cases hcond : claimableStatus j.status = true ∧ j.nextAttemptAt ≤ now
        ∧ leaseAvailable j now = true
    · rw [if_pos hcond] at h
      right
      cases Except.ok.inj h
      exact ⟨j, rfl, hcond.1, rfl, rfl⟩
    · rw [if_neg hcond] at h
      left
      exact (Except.ok.inj h).symm

theorem mark_job_submitted_ok {tok : Nat} {sig : Str} {s s1 : DbState}
    (h : mark_job_submitted tok sig s = .ok s1) :
    (∃ j, s.job = some j ∧ j.lockToken = some tok
      ∧ s1.job = some { j with
                        status := .submitted,
                        lastTxSig := some sig,
                        attemptCount := j.attemptCount + 1,
                        lastError := none })
    ∧ s1.m.matchStatus =
        (if s.m.matchStatus = .resultPendingFinalize then .finalizing else s.m.matchStatus) := by
  rw [mark_job_submitted] at h
  rcases hj : s.job with _ | j <;> rw [hj] at h <;> simp only [] at h
  · cases h
  · by_cases hlock : j.lockToken = some tok
    · rw [if_pos hlock] at h
      cases Except.ok.inj h
      exact ⟨⟨j, rfl, hlock, rfl⟩, rfl⟩
    · rw [if_neg hlock] at h
      cases h

theorem mark_job_retry_or_failed_ok {ns : ChainJobStatus} {tok : Nat} {msg : Str}
    {secs now : Int} {inc : Bool} {s s1 : DbState}
    (h : mark_job_retry_or_failed ns tok msg secs now inc s = .ok s1) :
    (∃ j, s.job = some j ∧ j.lockToken = some tok)
    ∧ (∃ j1, s1.job = some j1 ∧ j1.status = ns ∧ j1.lockToken = none)
    ∧ s1.m.matchStatus =
        (if (s.m.matchStatus = .resultPendingFinalize ∨ s.m.matchStatus = .finalizing)
            ∧ ns = .retrying
         then .finalizing else s.m.matchStatus) := by
  rw [mark_job_retry_or_failed] at h
  rcases hj : s.job with _ | j <;> rw [hj] at h <;> simp only [] at h
  · cases h
  · by_cases hlock : j.lockToken = some tok
    · rw [if_pos hlock] at h
      cases Except.ok.inj h
      exact ⟨⟨j, rfl, hlock⟩, ⟨_, rfl, rfl, rfl⟩, rfl⟩
    · rw [if_neg hlock] at h
      cases h

theorem mark_job_confirmed_ok {tok : Nat} {sig : Option Str} {fin : MatchStatus}
    {now : Int} {s s1 : DbState}
    (h : mark_job_confirmed_and_finalize_match tok sig fin now s = .ok s1) :
    terminalStatus fin
    ∧ (∃ j, s.job = some j ∧ j.lockToken = some tok)
    ∧ (∃ j1, s1.job = some j1 ∧ j1.status = .confirmed ∧ j1.lockToken = none)
    ∧ s1.m.matchStatus = fin := by
  rw [mark_job_confirmed_and_finalize_match] at h
  by_cases hfin : fin = .settled ∨ fin = .refunded
  · rw [if_pos hfin] at h
    rcases hj : s.job with _ | j <;> rw [hj] at h <;> simp only [] at h
    · cases h
    · by_cases hlock : j.lockToken = some tok
      · rw [if_pos hlock] at h
        cases Except.ok.inj h
        exact ⟨hfin, ⟨j, rfl, hlock⟩, ⟨_, rfl, rfl, rfl⟩, rfl⟩
      · rw [if_neg hlock] at h
        cases h
  · rw [if_neg hfin] at h
    cases h

theorem clear_job_lock_ok {tok : Nat} {s s1 : DbState}
    (h : clear_job_lock tok s = .ok s1) :
    s1 = s
    ∨ (∃ j, s.job = some j ∧ j.lockToken = some tok ∧ s1.m = s.m
        ∧ s1.job = some { j with lockToken := none, lockedAt := none }) := by
  rw [clear_job_lock] at h
  rcases hj : s.job with _ | j <;> rw [hj] at h <;> simp only [] at h
  · left
    exact (Except.ok.inj h).symm
  · by_cases hlock : j.lockToken = some tok
    · rw [if_pos hlock] at h
      right
      cases Except.ok.inj h
      exact ⟨j, rfl, hlock, rfl, rfl⟩
    · rw [if_neg hlock] at h
      left
      exact (Except.ok.inj h).symm

theorem claimable_confirmed_false : claimableStatus .confirmed = false := rfl

theorem terminal_not_waiting {st : MatchStatus} (h : terminalStatus st) :
    st ≠ .waitingCreateTx := by
  rcases h with h | h <;> rw [h] <;> intro hc <;> cases hc

theorem dbinv_init (matchId : Int) (p1 : Str) (e : Int) : DbInv (initialMatch matchId p1 e) := by
  constructor
  · intro j hj
    simp [initialMatch] at hj
  · intro hterm
    rcases hterm with h | h <;> simp [initialMatch] at h

theorem dbinv_job_eq_preserved {s s1 : DbState} (hInv : DbInv s)
    (hjob : s1.job = s.job) (newSt : MatchStatus) (hnewnt : ¬ terminalStatus newSt)
    (hst : s1.m.matchStatus = newSt ∨ s1.m.matchStatus = s.m.matchStatus) : DbInv s1 := by
  obtain ⟨hl, ht⟩ := hInv
  constructor
  · intro j hj hc
    exact hl j (by rw [← hjob]; exact hj) hc
  · intro hterm
    rcases hst with h | h
    · rw [h] at hterm
      exact absurd hterm hnewnt
    · rw [h] at hterm
      obtain ⟨j, hj, hc⟩ := ht hterm
      exact ⟨j, by rw [hjob]; exact hj, hc⟩

theorem dbinv_step {s s1 : DbState} (hInv : DbInv s) (hstep : Step s s1) : DbInv s1 := by
  obtain ⟨hl, ht⟩ := hInv
  cases hstep with
  | createConfirm sig t1 t2 su su1 h =>
    obtain ⟨hjob, hst⟩ := mark_match_created_ok h
    refine dbinv_job_eq_preserved ⟨hl, ht⟩ hjob .createdOnChain (by rintro (h1 | h1) <;> cases h1) ?_
    rw [hst]
    by_cases hw : s.m.matchStatus = .waitingCreateTx
    · rw [if_pos hw]
      exact Or.inl rfl
    · rw [if_neg hw]
      exact Or.inr rfl
  | joinConfirm p2 sig t1 t2 su su1 h =>
    obtain ⟨hjob, hst⟩ := mark_match_joined_ok h
    refine dbinv_job_eq_preserved ⟨hl, ht⟩ hjob .joinedOnChain (by rintro (h1 | h1) <;> cases h1) ?_
    rw [hst]
    by_cases hw : s.m.matchStatus = .createdOnChain
    · rw [if_pos hw]
      exact Or.inl rfl
    · rw [if_neg hw]
      exact Or.inr rfl
  | submitResult p now su su1 h =>
    obtain ⟨hst, hsome, hnone⟩ := persist_result_ok h
    constructor
    · intro j hj hc
      rcases hjs : s.job with _ | j0
      · obtain ⟨jf, hjf, hpend, hlockn⟩ := hnone hjs
        rw [hjf] at hj
        cases hj
        rw [hpend] at hc
        cases hc
      · have := hsome j0 hjs
        rw [this] at hj
        cases hj
        exact hl _ hjs hc
    · intro hterm
      rw [hst] at hterm
      by_cases hip : s.m.matchStatus = .joinedOnChain ∨ s.m.matchStatus = .inProgress
      · rw [if_pos hip] at hterm
        rcases hterm with h1 | h1 <;> cases h1
      · rw [if_neg hip] at hterm
        obtain ⟨j, hj, hc⟩ := ht hterm
        exact ⟨j, hsome j hj, hc⟩
  | adminRetry now su su1 h =>
    obtain ⟨hnt, _, ⟨jr, hjr, hpend, hlockn⟩, hst⟩ := retry_finalization_ok h
    constructor
    · intro j hj hc
      rw [hjr] at hj
      cases hj
      rw [hpend] at hc
      cases hc
    · intro hterm
      rw [hst] at hterm
      by_cases hf : s.m.matchStatus = .resultPendingFinalize ∨ s.m.matchStatus = .finalizing
      · rw [if_pos hf] at hterm
        rcases hterm with h1 | h1 <;> cases h1
      · rw [if_neg hf] at hterm
        exact absurd hterm hnt
  | watcherEnqueue now su su1 h =>
    rcases enqueue_join_timeout_ok h with ⟨_, rfl⟩ | ⟨hcre, hjn, hst, hjob⟩
    · exact ⟨hl, ht⟩
    · constructor
      · intro j hj hc
        rw [hjob] at hj
        cases hj
        cases hc
      · intro hterm
        rw [hst] at hterm
        rcases hterm with h1 | h1 <;> cases h1
  | claimJob tok now su su1 h =>
    rcases claim_job_ok h with rfl | ⟨j, hj, hclaim, hm, hjob⟩
    · exact ⟨hl, ht⟩
    · constructor
      · intro j1 hj1 hc
        rw [hjob] at hj1
        cases hj1
        rw [hc] at hclaim
        cases hclaim
      · intro hterm
        rw [hm] at hterm
        obtain ⟨jc, hjc, hcc⟩ := ht hterm
        rw [hj] at hjc
        cases hjc
        rw [hcc] at hclaim
        cases hclaim
  | jobSubmitted tok sig su su1 h =>
    obtain ⟨⟨j, hj, hlock, hjob⟩, hst⟩ := mark_job_submitted_ok h
    constructor
    · intro j1 hj1 hc
      rw [hjob] at hj1
      cases hj1
      cases hc
    · intro hterm
      rw [hst] at hterm
      by_cases hf : s.m.matchStatus = .resultPendingFinalize
      · rw [if_pos hf] at hterm
        rcases hterm with h1 | h1 <;> cases h1
      · rw [if_neg hf] at hterm
        obtain ⟨jc, hjc, hcc⟩ := ht hterm
        rw [hj] at hjc
        cases hjc
        rw [hl j hj hcc] at hlock
        cases hlock
  | jobRetrying tok msg backoff now inc su su1 h =>
    obtain ⟨⟨j, hj, hlock⟩, ⟨j1, hj1, hstat, hlockn⟩, hst⟩ := mark_job_retry_or_failed_ok h
    constructor
    · intro j2 hj2 hc
      rw [hj1] at hj2
      cases hj2
      rw [hstat] at hc
      cases hc
    · intro hterm
      rw [hst] at hterm
      by_cases hf : (s.m.matchStatus = .resultPendingFinalize ∨ s.m.matchStatus = .finalizing)
          ∧ ChainJobStatus.retrying = ChainJobStatus.retrying
      · rw [if_pos hf] at hterm
        rcases hterm with h1 | h1 <;> cases h1
      · rw [if_neg hf] at hterm
        obtain ⟨jc, hjc, hcc⟩ := ht hterm
        rw [hj] at hjc
        cases hjc
        rw [hl j hj hcc] at hlock
        cases hlock
  | jobFailed tok msg inc su su1 h =>
    obtain ⟨⟨j, hj, hlock⟩, ⟨j1, hj1, hstat, hlockn⟩, hst⟩ := mark_job_retry_or_failed_ok h
    constructor
    · intro j2 hj2 hc
      rw [hj1] at hj2
      cases hj2
      rw [hstat] at hc
      cases hc
    · intro hterm
      rw [hst] at hterm
      by_cases hf : (s.m.matchStatus = .resultPendingFinalize ∨ s.m.matchStatus = .finalizing)
          ∧ ChainJobStatus.failed = ChainJobStatus.retrying
      · exact absurd hf.2 (by intro hx; cases hx)
      · rw [if_neg hf] at hterm
        obtain ⟨jc, hjc, hcc⟩ := ht hterm
        rw [hj] at hjc
        cases hjc
        rw [hl j hj hcc] at hlock
        cases hlock
  | jobConfirmed tok sig fin now su su1 h =>
    obtain ⟨hfin, ⟨j, hj, hlock⟩, ⟨j1, hj1, hc1, hlockn⟩, hst⟩ := mark_job_confirmed_ok h
    constructor
    · intro j2 hj2 hc
      rw [hj1] at hj2
      cases hj2
      exact hlockn
    · intro _
      exact ⟨j1, hj1, hc1⟩
  | lockCleared tok su su1 h =>
    rcases clear_job_lock_ok h with rfl | ⟨j, hj, hlock, hm, hjob⟩
    · exact ⟨hl, ht⟩
    · constructor
      · intro j1 hj1 hc
        rw [hjob] at hj1
        cases hj1
        rfl
      · intro hterm
        rw [hm] at hterm
        obtain ⟨jc, hjc, hcc⟩ := ht hterm
        rw [hj] at hjc
        cases hjc
        exact ⟨_, hjob, hcc⟩

theorem step_terminal_absorbing {s s1 : DbState} (hInv : DbInv s) (hstep : Step s s1)
    (hterm : terminalStatus s.m.matchStatus) : s1.m.matchStatus = s.m.matchStatus := by
  obtain ⟨hl, ht⟩ := hInv
  cases hstep with
  | createConfirm sig t1 t2 su su1 h =>
    obtain ⟨_, hst⟩ := mark_match_created_ok h
    rw [hst, if_neg]
    intro hc
    rw [hc] at hterm
    rcases hterm with h1 | h1 <;> cases h1
  | joinConfirm p2 sig t1 t2 su su1 h =>
    obtain ⟨_, hst⟩ := mark_match_joined_ok h
    rw [hst, if_neg]
    intro hc
    rw [hc] at hterm
    rcases hterm with h1 | h1 <;> cases h1
  | submitResult p now su su1 h =>
    obtain ⟨hst, _, _⟩ := persist_result_ok h
    rw [hst, if_neg]
    rintro (hc | hc) <;> rw [hc] at hterm <;> rcases hterm with h1 | h1 <;> cases h1
  | adminRetry now su su1 h =>
    obtain ⟨hnt, _, _, _⟩ := retry_finalization_ok h
    exact absurd hterm hnt
  | watcherEnqueue now su su1 h =>
    rcases enqueue_join_timeout_ok h with ⟨_, rfl⟩ | ⟨hcre, _, _, _⟩
    · rfl
    · rw [hcre] at hterm
      rcases hterm with h1 | h1 <;> cases h1
  | claimJob tok now su su1 h =>
    rcases claim_job_ok h with rfl | ⟨_, _, _, hm, _⟩
    · rfl
    · rw [hm]
  | jobSubmitted tok sig su su1 h =>
    obtain ⟨_, hst⟩ := mark_job_submitted_ok h
    rw [hst, if_neg]
    intro hc
    rw [hc] at hterm
    rcases hterm with h1 | h1 <;> cases h1
  | jobRetrying tok msg backoff now inc su su1 h =>
    obtain ⟨_, _, hst⟩ := mark_job_retry_or_failed_ok h
    rw [hst, if_neg]
    rintro ⟨hc | hc, _⟩ <;> rw [hc] at hterm <;> rcases hterm with h1 | h1 <;> cases h1
  | jobFailed tok msg inc su su1 h =>
    obtain ⟨_, _, hst⟩ := mark_job_retry_or_failed_ok h
    rw [hst, if_neg]
    rintro ⟨hc | hc, _⟩ <;> rw [hc] at hterm <;> rcases hterm with h1 | h1 <;> cases h1
  | jobConfirmed tok sig fin now su su1 h =>
    obtain ⟨_, ⟨j, hj, hlock⟩, _, _⟩ := mark_job_confirmed_ok h
    obtain ⟨jc, hjc, hcc⟩ := ht hterm
    rw [hj] at hjc
    cases hjc
    rw [hl j hj hcc] at hlock
    cases hlock
  | lockCleared tok su su1 h =>
    rcases clear_job_lock_ok h with rfl | ⟨_, _, _, hm, _⟩
    · rfl
    · rw [hm]

theorem step_confirmed_frozen {s s1 : DbState} {j : ChainJob} (hInv : DbInv s)
    (hstep : Step s s1) (hj : s.job = some j) (hc : j.status = .confirmed) :
    s1.job = some j := by
  obtain ⟨hl, ht⟩ := hInv
  have hlockn : j.lockToken = none := hl j hj hc
  cases hstep with
  | createConfirm sig t1 t2 su su1 h =>
    rw [(mark_match_created_ok h).1, hj]
  | joinConfirm p2 sig t1 t2 su su1 h =>
    rw [(mark_match_joined_ok h).1, hj]
  | submitResult p now su su1 h =>
    exact (persist_result_ok h).2.1 j hj
  | adminRetry now su su1 h =>
    obtain ⟨_, ⟨j2, hj2, hnc⟩, _, _⟩ := retry_finalization_ok h
    rw [hj] at hj2
    cases hj2
    exact absurd hc hnc
  | watcherEnqueue now su su1 h =>
    rcases enqueue_join_timeout_ok h with ⟨_, rfl⟩ | ⟨_, hjn, _, _⟩
    · exact hj
    · rw [hj] at hjn
      cases hjn
  | claimJob tok now su su1 h =>
    rcases claim_job_ok h with rfl | ⟨j2, hj2, hclaim, _, _⟩
    · exact hj
    · rw [hj] at hj2
      cases hj2
      rw [hc] at hclaim
      cases hclaim
  | jobSubmitted tok sig su su1 h =>
    obtain ⟨⟨j2, hj2, hlock2, _⟩, _⟩ := mark_job_submitted_ok h
    rw [hj] at hj2
    cases hj2
    rw [hlockn] at hlock2
    cases hlock2
  | jobRetrying tok msg backoff now inc su su1 h =>
    obtain ⟨⟨j2, hj2, hlock2⟩, _, _⟩ := mark_job_retry_or_failed_ok h
    rw [hj] at hj2
    cases hj2
    rw [hlockn] at hlock2
    cases hlock2
  | jobFailed tok msg inc su su1 h =>
    obtain ⟨⟨j2, hj2, hlock2⟩, _, _⟩ := mark_job_retry_or_failed_ok h
    rw [hj] at hj2
    cases hj2
    rw [hlockn] at hlock2
    cases hlock2
  | jobConfirmed tok sig fin now su su1 h =>
    obtain ⟨_, ⟨j2, hj2, hlock2⟩, _, _⟩ := mark_job_confirmed_ok h
    rw [hj] at hj2
    cases hj2
    rw [hlockn] at hlock2
    cases hlock2
  | lockCleared tok su su1 h =>
    rcases clear_job_lock_ok h with rfl | ⟨j2, hj2, hlock2, _, _⟩
    · exact hj
    · rw [hj] at hj2
      cases hj2
      rw [hlockn] at hlock2
      cases hlock2

theorem reachable_dbinv {s : DbState} (h : Reachable s) : DbInv s := by
  obtain ⟨mid, p1, e, hr⟩ := h
  induction hr with
  | refl => exact dbinv_init mid p1 e
  | tail hsteps hstep ih => exact dbinv_step ih hstep

theorem exReach6 : Reachable exState6 := by
  refine ⟨1, ("P1".toList), 100, ?_⟩
  have t1 : Step exState0 exState1 :=
    Step.createConfirm ("ct".toList) 10 20 exState0 exState1 (by decide)
  have t2 : Step exState1 exState2 :=
    Step.joinConfirm ("P2".toList) ("jt".toList) 30 40 exState1 exState2 (by decide)
  have t3 : Step exState2 exState3 :=
    Step.submitResult exParams 50 exState2 exState3 (by decide)
  have t4 : Step exState3 exState4 :=
    Step.claimJob 77 60 exState3 exState4 (by decide)
  have t5 : Step exState4 exState5 :=
    Step.jobSubmitted 77 ("sig1".toList) exState4 exState5 (by decide)
  have t6 : Step exState5 exState6 :=
    Step.jobConfirmed 77 (some ("sig1".toList)) .settled 70 exState5 exState6 (by decide)
  exact Relation.ReflTransGen.tail
    (Relation.ReflTransGen.tail
      (Relation.ReflTransGen.tail
        (Relation.ReflTransGen.tail
          (Relation.ReflTransGen.tail
            (Relation.ReflTransGen.tail Relation.ReflTransGen.refl t1) t2) t3) t4) t5) t6

/-- C2: in every reachable database state, a match whose status is terminal
(`settled` or `refunded`) keeps exactly that status across every operation of
the system: the two confirm endpoints, result submission, admin retry, the
timeout-watcher enqueue, and every finalizer job update. -/
theorem c2_terminal_status_absorbing :
    ∀ s s1 : DbState, Reachable s → Step s s1 →
      terminalStatus s.m.matchStatus → s1.m.matchStatus = s.m.matchStatus :=
  fun _ _ hr hstep hterm => step_terminal_absorbing (reachable_dbinv hr) hstep hterm

theorem c2_terminal_status_absorbing_witness :
    terminalStatus exState6.m.matchStatus
    ∧ exState7.m.matchStatus = exState6.m.matchStatus :=
  ⟨Or.inl (by decide),
   c2_terminal_status_absorbing exState6 exState7 exReach6
     (Step.createConfirm ("x".toList) 1 2 exState6 exState7 (by decide))
     (Or.inl (by decide))⟩

/-- C3: in every reachable database state, a confirmed ChainJob stays exactly
as it is across every operation (admin retry, worker claim, submit/retry/fail
updates, timeout-watcher upsert, lock clearing): the admin reset is guarded by
`status <> 'confirmed'`, the claim query selects only
pending/retrying/submitted jobs, and all worker updates require the caller's
lock token while a confirmed job's lock token is null. -/
theorem c3_confirmed_job_absorbing :
    ∀ (s s1 : DbState) (j : ChainJob), Reachable s → Step s s1 →
      s.job = some j → j.status = .confirmed →
      s1.job = some j ∧ ∃ j1, s1.job = some j1 ∧ j1.status = .confirmed :=
  fun s s1 j hr hstep hj hc =>
    have hf := step_confirmed_frozen (reachable_dbinv hr) hstep hj hc
    ⟨hf, j, hf, hc⟩

theorem c3_confirmed_job_absorbing_witness :
    exState6.job = some exConfirmedJob
    ∧ ∃ j1, exState6.job = some j1 ∧ j1.status = .confirmed :=
  c3_confirmed_job_absorbing exState6 exState6 exConfirmedJob exReach6
    (Step.claimJob 99 80 exState6 exState6 (by decide)) (by decide) (by decide)

/-- C1 evidence (code bug): the result-submit route is gated only by
`validate_internal_headers_stub`, which checks that the configured secret is
non-empty and inspects no headers at all (TODO at `api/matches.rs:474`), so a
request with no `X-Timestamp`/`X-Nonce`/`X-Signature` headers is accepted and
updates the match and enqueues a job — while the real verifier
`verify_internal_hmac` (used by the admin route) rejects a headerless request
with `Unauthorized`. -/
theorem c1_submit_result_stub_bypasses_hmac :
    validate_internal_headers_stub ("secret".toList) = .ok ()
    ∧ verify_internal_hmac ("secret".toList) none none none [] 0 false = .error .unauthorized
    ∧ submit_result ("secret".toList) exJoinedReq 50 exState2 = .ok exState3
    ∧ exState2.m.matchStatus = .joinedOnChain
    ∧ exState3.m.matchStatus = .resultPendingFinalize
    ∧ exState3.job = some exJob3 := by
  refine ⟨by decide, by decide, by decide, by decide, by decide, by decide⟩

theorem update_match_result_error {p : PersistResultAndEnqueueParams} {s : DbState}
    {e : AppErr} (h : update_match_result p s = .error e) : e = .conflict := by
  rw [update_match_result] at h
  by_cases hg : ((s.m.matchStatus = .joinedOnChain ∨ s.m.matchStatus = .inProgress)
        ∨ s.m.resultIdempotencyKey = some p.idempotencyKey)
      ∧ (s.m.resultIdempotencyKey = none ∨ s.m.resultIdempotencyKey = some p.idempotencyKey)
      ∧ (s.m.winnerPubkey = none ∨ s.m.winnerPubkey = p.winnerPubkey)
      ∧ (s.m.finalizationReasonCode = none ∨ s.m.finalizationReasonCode = some p.reasonCode)
  · rw [if_pos hg] at h
    cases h
  · rw [if_neg hg] at h
    exact (Except.error.inj h).symm

/-- C4: the result update and the job upsert are one transaction: when the
existing ChainJob row differs from the submitted outcome in `job_type` or
`winner_pubkey`, the whole operation returns `Conflict` and the committed state
(hence the match row) is exactly the pre-call state — the earlier match update
is rolled back, never committed alone; when the existing row is identical in
`job_type` and `winner_pubkey`, the job row is merely touched (`updated_at`
only): no second job is created and the stored job is unchanged. -/
theorem c4_result_enqueue_transactional :
    ∀ (s : DbState) (p : PersistResultAndEnqueueParams) (now : Int) (j : ChainJob),
      s.job = some j →
      (¬ (j.jobType = p.jobType ∧ j.winnerPubkey = p.winnerPubkey) →
        persist_result_and_enqueue p now s = .error .conflict
        ∧ commitTx s (persist_result_and_enqueue p now s) = s)
      ∧ (j.jobType = p.jobType ∧ j.winnerPubkey = p.winnerPubkey →
        (commitTx s (persist_result_and_enqueue p now s)).job = some j) := by
  intro s p now j hj
  constructor
  · intro hdiff
    have herr : persist_result_and_enqueue p now s = .error .conflict := by
      rw [persist_result_and_enqueue]
      rcases hu : update_match_result p s with e | s2
      · simp only []
        rw [update_match_result_error hu]
      · simp only []
        have hj2 : s2.job = some j := by
          rw [(update_match_result_ok hu).1, hj]
        rw [upsert_chain_job, hj2]
        simp only []
        rw [if_neg hdiff]
    refine ⟨herr, ?_⟩
    rw [herr]
    rfl
  · intro hsame
    rcases hp : persist_result_and_enqueue p now s with e | s1
    · exact hj
    · exact (persist_result_ok hp).2.1 j hj

theorem c4_result_enqueue_transactional_witness :
    (persist_result_and_enqueue exParamsDiff 55 exState3 = .error .conflict
      ∧ commitTx exState3 (persist_result_and_enqueue exParamsDiff 55 exState3) = exState3)
    ∧ (commitTx exState3 (persist_result_and_enqueue exParams 55 exState3)).job = some exJob3 :=
  ⟨(c4_result_enqueue_transactional exState3 exParamsDiff 55 exJob3 (by decide)).1 (by decide),
   (c4_result_enqueue_transactional exState3 exParams 55 exJob3 (by decide)).2 (by decide)⟩

/-- C10: the join-confirm conditional update never overwrites a different
recorded player2: when the stored `player2_pubkey` is a non-null P and the
on-chain player2 Q differs, the UPDATE matches no row, the operation returns
`Conflict`, and the stored `player2_pubkey` remains P. -/
theorem c10_join_confirm_never_overwrites_player2 :
    ∀ (s : DbState) (storedP2 q sig : Str) (tJoined tSettle : Int),
      s.m.player2Pubkey = some storedP2 → q ≠ storedP2 →
      mark_match_joined_on_chain q sig tJoined tSettle s = .error .conflict
      ∧ commitTx s (mark_match_joined_on_chain q sig tJoined tSettle s) = s
      ∧ (commitTx s (mark_match_joined_on_chain q sig tJoined tSettle s)).m.player2Pubkey
          = some storedP2 := by
  intro s P q sig t1 t2 hP hq
  have herr : mark_match_joined_on_chain q sig t1 t2 s = .error .conflict := by
    rw [mark_match_joined_on_chain, if_neg]
    push_neg
    constructor
    · rw [hP]
      intro hx
      cases hx
    · rw [hP]
      intro hx
      exact hq (Option.some.inj hx).symm
  refine ⟨herr, ?_, ?_⟩
  · rw [herr]
    rfl
  · rw [herr]
    exact hP

theorem c10_join_confirm_never_overwrites_player2_witness :
    mark_match_joined_on_chain ("Q2".toList) ("jt2".toList) 31 41 exState2 = .error .conflict
    ∧ commitTx exState2 (mark_match_joined_on_chain ("Q2".toList) ("jt2".toList) 31 41 exState2)
        = exState2
    ∧ (commitTx exState2
        (mark_match_joined_on_chain ("Q2".toList) ("jt2".toList) 31 41 exState2)).m.player2Pubkey
        = some ("P2".toList) :=
  c10_join_confirm_never_overwrites_player2 exState2 ("P2".toList) ("Q2".toList)
    ("jt2".toList) 31 41 (by decide) (by decide)

theorem selectJoinTimeoutCandidate_none {now : Int} {g : WatcherDb}
    (h : selectJoinTimeoutCandidate now g = none) :
    ∀ s ∈ g, joinTimeoutEligible now s.m s.job = false := by
  rw [selectJoinTimeoutCandidate] at h
  rcases hf : g.filter (fun s => joinTimeoutEligible now s.m s.job) with _ | ⟨c, cs⟩
  · intro s hs
    have := List.filter_eq_nil_iff.mp hf s hs
    simpa using this
  · rw [hf] at h
    cases h

theorem enqueue_none_no_eligible {now : Int} {g : WatcherDb}
    (h : enqueue_next_expired_join_timeout_force_refund now g = none) :
    ∀ s ∈ g, joinTimeoutEligible now s.m s.job = false := by
  rw [enqueue_next_expired_join_timeout_force_refund] at h
  rcases hs : selectJoinTimeoutCandidate now g with _ | mid
  · exact selectJoinTimeoutCandidate_none hs
  · rw [hs] at h
    simp only [] at h
    cases h

theorem processTickLoop_count_le (now : Int) :
    ∀ (fuel : Nat) (g : WatcherDb) (k : Nat),
      (processTickLoop now fuel g k).2 ≤ k + fuel := by
  intro fuel
  induction fuel with
  | zero =>
    intro g k
    simp [processTickLoop]
  | succ n ih =>
    intro g k
    rw [processTickLoop]
    rcases he : enqueue_next_expired_join_timeout_force_refund now g with _ | ⟨g1, mid⟩
    · simp only []
      omega
    · simp only []
      have := ih g1 (k + 1)
      omega

theorem processTickLoop_early_exit (now : Int) :
    ∀ (fuel : Nat) (g : WatcherDb) (k : Nat),
      (processTickLoop now fuel g k).2 < k + fuel →
      ∀ s ∈ (processTickLoop now fuel g k).1, joinTimeoutEligible now s.m s.job = false := by
  intro fuel
  induction fuel with
  | zero =>
    intro g k hlt
    rw [processTickLoop] at hlt
    omega
  | succ n ih =>
    intro g k hlt
    rw [processTickLoop] at hlt ⊢
    rcases he : enqueue_next_expired_join_timeout_force_refund now g with _ | ⟨g1, mid⟩
    · simp only []
      exact enqueue_none_no_eligible he
    · rw [he] at hlt
      simp only [] at hlt ⊢
      exact ih g1 (k + 1) (by omega)

/-- C9: every timeout-watcher tick terminates in a bounded number of steps
(the loop is structurally bounded by `MAX_ENQUEUES_PER_TICK = 25` iterations)
and enqueues at most 25 join-timeout force_refund jobs; it exits early as soon
as no eligible expired match remains: whenever fewer than 25 enqueues happen,
the final table holds no eligible match. -/
theorem c9_process_tick_bounded :
    ∀ (now : Int) (g : WatcherDb),
      (process_tick now g).2 ≤ MAX_ENQUEUES_PER_TICK
      ∧ ((process_tick now g).2 < MAX_ENQUEUES_PER_TICK →
          ∀ s ∈ (process_tick now g).1, joinTimeoutEligible now s.m s.job = false) := by
  intro now g
  constructor
  · have := processTickLoop_count_le now MAX_ENQUEUES_PER_TICK g 0
    simpa [process_tick] using this
  · intro hlt
    have := processTickLoop_early_exit now MAX_ENQUEUES_PER_TICK g 0 (by
      rw [process_tick] at hlt
      omega)
    simpa [process_tick] using this

theorem c9_process_tick_bounded_witness :
    (process_tick 100 [exWatcherRow]).2 ≤ MAX_ENQUEUES_PER_TICK
    ∧ ∀ s ∈ (process_tick 100 [exWatcherRow]).1,
        joinTimeoutEligible 100 s.m s.job = false :=
  ⟨(c9_process_tick_bounded 100 [exWatcherRow]).1,
   (c9_process_tick_bounded 100 [exWatcherRow]).2 (by decide)⟩

end Volttx
